import Mathlib

/-!
Verification development for the ww-server interview-practice backend.

The model shallowly embeds the session orchestration core of
`src/interview/services/interview.service.ts` (the first service snapshot in
that file), the response parser of
`src/interview/services/interview-ai.service.ts`, and the consumption-ledger
saga.  Text is modelled as `List Char` (JS strings are sequences of UTF-16
code units; every character appearing in this development is a single unit,
so `List Char` indexing agrees with JS string indexing).  Timestamps are
milliseconds as `Nat` (`Date.now()`).  Database writes are modelled as pure
updates of an in-memory list of result records; the generation backend is an
oracle parameter supplying the list of text fragments its stream yields.
-/

namespace WWServer

/-- Text is a list of characters, matching JS string code-unit indexing. -/
abbrev Text := List Char

/-- Whitespace characters removed by `String.prototype.trim` that can occur
in this code base (space, tab, line feed, carriage return). -/
def isJsWs (c : Char) : Bool :=
  c == ' ' || c == '\t' || c == '\n' || c == '\r'

/-- Index of the first occurrence of `m` in `s`, as computed by JS
`String.prototype.indexOf` (with `none` for `-1`). -/
def firstOccur (m : Text) : Text → Option Nat
  | [] => if m.isPrefixOf [] then some 0 else none
  | c :: rest =>
    if m.isPrefixOf (c :: rest) then some 0
    else (firstOccur m rest).map (· + 1)

/-- JS `String.prototype.includes`. -/
def containsSub (m s : Text) : Bool :=
  (firstOccur m s).isSome

/-- JS `String.prototype.trim`, left side. -/
def ltrim (s : Text) : Text := s.dropWhile isJsWs

/-- JS `String.prototype.trim`, right side. -/
def rtrim (s : Text) : Text := (s.reverse.dropWhile isJsWs).reverse

/-- JS `String.prototype.trim`. -/
def trimText (s : Text) : Text := rtrim (ltrim s)

theorem firstOccur_nil_marker (s : Text) : firstOccur [] s = some 0 := by
  cases s <;> simp [firstOccur, List.isPrefixOf]

theorem firstOccur_fits {m s : Text} {i : Nat} (h : firstOccur m s = some i) :
    i + m.length ≤ s.length := by
  induction s generalizing i with
  | nil =>
    simp only [firstOccur] at h
    split at h
    · next hp =>
      rw [List.isPrefixOf_iff_prefix] at hp
      have hm : m = [] := List.prefix_nil.mp hp
      cases h
      simp [hm]
    · exact absurd h (by simp)
  | cons c rest ih =>
    simp only [firstOccur] at h
    split at h
    · next hp =>
      cases h
      have := (List.isPrefixOf_iff_prefix.mp hp).length_le
      simpa using this
    · next =>
      obtain ⟨j, hj, rfl⟩ := Option.map_eq_some'.mp h
      have := ih hj
      simp
      omega

theorem firstOccur_matches {m s : Text} {i : Nat} (h : firstOccur m s = some i) :
    m.isPrefixOf (s.drop i) = true := by
  induction s generalizing i with
  | nil =>
    simp only [firstOccur] at h
    split at h
    · next hp =>
      cases h
      simpa using hp
    · exact absurd h (by simp)
  | cons c rest ih =>
    simp only [firstOccur] at h
    split at h
    · next hp =>
      cases h
      simpa using hp
    · next =>
      obtain ⟨j, hj, rfl⟩ := Option.map_eq_some'.mp h
      simpa using ih hj

theorem firstOccur_mono {m s : Text} {i : Nat} (t : Text)
    (h : firstOccur m s = some i) : firstOccur m (s ++ t) = some i := by
  induction s generalizing i with
  | nil =>
    simp only [firstOccur] at h
    split at h
    · next hp =>
      rw [List.isPrefixOf_iff_prefix] at hp
      have hm : m = [] := List.prefix_nil.mp hp
      cases h
      simp [hm, firstOccur_nil_marker]
    · exact absurd h (by simp)
  | cons c rest ih =>
    simp only [firstOccur] at h
    split at h
    · next hp =>
      cases h
      have hp' : m.isPrefixOf (c :: rest ++ t) = true := by
        rw [List.isPrefixOf_iff_prefix] at hp ⊢
        exact hp.trans (List.prefix_append _ _)
      simp only [firstOccur, List.append_eq]
      simp only [List.cons_append] at hp'
      simp [List.isPrefixOf_iff_prefix.mp hp']
    · next hp =>
      obtain ⟨j, hj, rfl⟩ := Option.map_eq_some'.mp h
      have hlen : m.length ≤ rest.length := by
        have := firstOccur_fits hj
        omega
      have hp' : ¬ m.isPrefixOf (c :: rest ++ t) = true := by
        intro hcon
        apply hp
        rw [List.isPrefixOf_iff_prefix] at hcon ⊢
        have h2 : m = (c :: rest).take m.length := by
          have h3 := List.prefix_iff_eq_take.mp hcon
          rwa [show c :: rest ++ t = (c :: rest) ++ t from rfl,
            List.take_append_of_le_length (by simp; omega)] at h3
        rw [h2]
        exact List.take_prefix _ _
      simp only [firstOccur, List.append_eq]
      have hp'' : ¬ m <+: c :: (rest ++ t) := fun hc =>
        hp' (List.isPrefixOf_iff_prefix.mpr hc)
      simp [hp'', ih hj]

theorem isPrefixOf_drop_isSome {m s : Text} {i : Nat}
    (h : m.isPrefixOf (s.drop i) = true) : (firstOccur m s).isSome := by
  induction s generalizing i with
  | nil =>
    simp only [List.drop_nil] at h
    rw [List.isPrefixOf_iff_prefix] at h
    have hm : m = [] := List.prefix_nil.mp h
    simp [hm, firstOccur_nil_marker]
  | cons c rest ih =>
    by_cases hp : m.isPrefixOf (c :: rest) = true
    · simp [firstOccur, hp]
    · simp only [firstOccur, hp, if_false]
      cases i with
      | zero => rw [List.drop_zero] at h; exact absurd h hp
      | succ j =>
        rw [List.drop_succ_cons] at h
        have := ih h
        simpa using this

theorem containsSub_iff_exists (m s : Text) :
    containsSub m s = true ↔ ∃ a b, s = a ++ m ++ b := by
  constructor
  · intro h
    rw [containsSub] at h
    obtain ⟨i, hi⟩ := Option.isSome_iff_exists.mp h
    have hm := firstOccur_matches hi
    rw [List.isPrefixOf_iff_prefix] at hm
    obtain ⟨b, hb⟩ := hm
    refine ⟨s.take i, b, ?_⟩
    conv_lhs => rw [← List.take_append_drop i s]
    rw [← hb, List.append_assoc]
  · rintro ⟨a, b, rfl⟩
    rw [containsSub]
    apply isPrefixOf_drop_isSome (i := a.length)
    rw [List.append_assoc, List.drop_left]
    rw [List.isPrefixOf_iff_prefix]
    exact List.prefix_append _ _

/-- Fuel-based worker for `removeAllSub`; each recursive call strictly
shortens the text (a nonempty occurrence is removed), so any fuel of at
least `s.length + 1` yields the fixpoint. -/
def removeAllAux : Nat → Text → Text → Text
  | 0, _, s => s
  | fuel + 1, m, s =>
    if m = [] then s
    else
      match firstOccur m s with
      | none => s
      | some i => s.take i ++ removeAllAux fuel m (s.drop (i + m.length))

/-- JS global regex replace of every left-to-right non-overlapping occurrence
of `m` by the empty string (`content.replace(/m/g, "")`).  Scanning resumes
after each removed occurrence, so a removal can juxtapose characters into a
fresh occurrence that survives in the output. -/
def removeAllSub (m s : Text) : Text :=
  removeAllAux (s.length + 1) m s

/-- Text strictly before the first occurrence of `m` (all of `s` if absent). -/
def takeBeforeFirst (m s : Text) : Text :=
  match firstOccur m s with
  | none => s
  | some i => s.take i

/-- Text strictly after the first occurrence of `m` (all of `s` if absent). -/
def dropAfterFirst (m s : Text) : Text :=
  match firstOccur m s with
  | none => s
  | some i => s.drop (i + m.length)

theorem rtrim_pref_self (x : Text) : rtrim x <+: x := by
  rw [rtrim]
  conv_rhs =>
    rw [← List.reverse_reverse x, ← List.takeWhile_append_dropWhile isJsWs x.reverse,
      List.reverse_append]
  exact List.prefix_append _ _

theorem rtrim_append_pref (x y : Text) : rtrim x <+: rtrim (x ++ y) := by
  rw [rtrim, rtrim, List.reverse_append, List.dropWhile_append]
  by_cases hy : (y.reverse.dropWhile isJsWs).isEmpty = true
  · simp [hy]
  · rw [if_neg (by simpa using hy)]
    rw [List.reverse_append, List.reverse_reverse]
    exact (rtrim_pref_self x).trans (List.prefix_append _ _)

theorem trim_append_pref (x y : Text) : trimText x <+: trimText (x ++ y) := by
  rw [trimText, trimText, ltrim, ltrim, List.dropWhile_append]
  by_cases hx : (x.dropWhile isJsWs).isEmpty = true
  · rw [if_pos hx]
    rw [List.isEmpty_iff] at hx
    rw [hx]
    simp [rtrim]
  · rw [if_neg hx]
    exact rtrim_append_pref _ _

/-! ## Consumption Ledger

The consumption saga (`begin`/`settle`/`abort`) is declared by the
`ConsumptionRecord` schema (`ConsumptionStatus`, `requestId` idempotency
field, `isRefunded` flag) and referenced by TODO call sites in
`executeStartMockInterview`, but its executable body is not present under
`src/`; the operations are therefore modelled from the spec (§4.1). -/

/-- Consumption record status, from the `ConsumptionStatus` enum of the
schema (`pending`/`success`/`failed`/`cancelled`). -/
inductive ConsumptionStatus
  | pending
  | success
  | failed
  | cancelled
deriving DecidableEq, Repr

/-- One attempted billable unit of work, projecting the fields of the
`ConsumptionRecord` schema used by the saga (`recordId`, `userId`, work
`type`, `status`, `requestId` idempotency key, linked `resultId`,
`isRefunded`). -/
structure ConsumptionRecord where
  recordId : String
  userId : String
  workType : String
  status : ConsumptionStatus
  requestId : Option String := none
  resultId : Option String := none
  isRefunded : Bool := false
deriving DecidableEq, Repr

/-- Ledger state: the user's remaining usage balance (a `...RemainingCount`
field of the user schema) together with the append-only record list. -/
structure LedgerState where
  balance : Nat
  records : List ConsumptionRecord
deriving DecidableEq, Repr

/-- Outcome of `begin`, from the spec contract
`begin -> Result<PendingTicket, InsufficientBalance | DuplicateInProgress>`
plus the `AlreadySettled` short-circuit. -/
inductive BeginOutcome
  | alreadySettled (resultId : Option String)
  | duplicateInProgress
  | insufficientBalance
  | ticket (recordId : String)
deriving DecidableEq, Repr

/-- First record of the given user, idempotency key and status. -/
def findKeyed (st : LedgerState) (uid key : String)
    (status : ConsumptionStatus) : Option ConsumptionRecord :=
  st.records.find? fun r =>
    r.userId == uid && r.requestId == some key && r.status == status

/-- Modelled from the spec: `begin(userId, workType, idempotencyKey?)` of the
Consumption Ledger (§4.1), absent from `src/`.  If the key matches an
existing `success` record it returns that record's linked result without
touching the balance; if it matches a `pending` record it fails with
`DuplicateInProgress`; otherwise it atomically decrements the balance by one
unit and creates a new `pending` record, failing with `InsufficientBalance`
when the decrement-if-positive fails. -/
def ledgerBegin (st : LedgerState) (uid workType : String)
    (key : Option String) (newRecordId : String) : BeginOutcome × LedgerState :=
  let debit : BeginOutcome × LedgerState :=
    if st.balance = 0 then (.insufficientBalance, st)
    else
      (.ticket newRecordId,
        { balance := st.balance - 1,
          records := st.records ++
            [{ recordId := newRecordId, userId := uid, workType := workType,
               status := .pending, requestId := key }] })
  match key with
  | none => debit
  | some k =>
    match findKeyed st uid k .success with
    | some r => (.alreadySettled r.resultId, st)
    | none =>
      match findKeyed st uid k .pending with
      | some _ => (.duplicateInProgress, st)
      | none => debit

/-- Modelled from the spec: `settle(ticket, outputSnapshot)` of the
Consumption Ledger (§4.1), absent from `src/`: transitions the ticket's
record to `success`. -/
def ledgerSettle (st : LedgerState) (recordId : String)
    (resultId : Option String) : LedgerState :=
  { st with
    records := st.records.map fun r =>
      if r.recordId == recordId then
        { r with status := .success, resultId := resultId }
      else r }

/-- Modelled from the spec: `abort(ticket, errorInfo)` of the Consumption
Ledger (§4.1), absent from `src/`: credits the balance back (atomic
increment), transitions the record to `failed` and sets `refunded=true`. -/
def ledgerAbort (st : LedgerState) (recordId : String) : LedgerState :=
  { balance := st.balance + 1,
    records := st.records.map fun r =>
      if r.recordId == recordId then
        { r with status := .failed, isRefunded := true }
      else r }

/-- C1, Ledger idempotency: if a `success` record already exists for the
user's idempotency key (request R1 succeeded), then `begin` for a request R2
with the same user id and key returns R1's linked result as
`AlreadySettled` and leaves the ledger state — in particular the balance —
unchanged: no second debit occurs. -/
theorem c1_ledger_idempotency (st : LedgerState) (uid workType k nid : String)
    (r : ConsumptionRecord) (h : findKeyed st uid k .success = some r) :
    ledgerBegin st uid workType (some k) nid =
      (.alreadySettled r.resultId, st) := by
  simp [ledgerBegin, h]

/-- Settled record from request R1, for the C1 witness. -/
def c1Record : ConsumptionRecord :=
  { recordId := "rec1", userId := "u1",
    workType := "special_interview", status := .success,
    requestId := some "key1", resultId := some "res1" }

/-- Ledger state with one settled record, for the C1 witness. -/
def c1State : LedgerState := ⟨3, [c1Record]⟩

theorem c1_witness :
    findKeyed c1State "u1" "key1" .success = some c1Record ∧
    ledgerBegin c1State "u1" "special_interview" (some "key1") "rec2" =
      (.alreadySettled c1Record.resultId, c1State) :=
  ⟨by decide,
    c1_ledger_idempotency c1State "u1" "special_interview" "key1" "rec2"
      c1Record (by decide)⟩

/-- C2, Refund invariant: if `begin` successfully debited (returned a
pending ticket with a fresh record id) and generation then fails, `abort`
on that ticket restores the balance to exactly its value before `begin`,
and the ticket's consumption record is `failed` with `refunded=true`. -/
theorem c2_refund_invariant (st : LedgerState) (uid workType nid : String)
    (key : Option String)
    (hfresh : ∀ r ∈ st.records, r.recordId ≠ nid)
    (h : (ledgerBegin st uid workType key nid).1 = .ticket nid) :
    (ledgerAbort (ledgerBegin st uid workType key nid).2 nid).balance
        = st.balance ∧
    (ledgerAbort (ledgerBegin st uid workType key nid).2 nid).records.find?
        (fun r => r.recordId == nid) =
      some { recordId := nid, userId := uid, workType := workType,
             status := .failed, requestId := key, isRefunded := true } := by
  have hbal : st.balance ≠ 0 ∧
      (ledgerBegin st uid workType key nid).2 =
        { balance := st.balance - 1,
          records := st.records ++
            [{ recordId := nid, userId := uid, workType := workType,
               status := .pending, requestId := key }] } := by
    match key with
    | none =>
      by_cases hz : st.balance = 0
      · simp [ledgerBegin, hz] at h
      · simp [ledgerBegin, hz]
    | some k =>
      match hs : findKeyed st uid k .success with
      | some r => simp [ledgerBegin, hs] at h
      | none =>
        match hp : findKeyed st uid k .pending with
        | some r => simp [ledgerBegin, hs, hp] at h
        | none =>
          by_cases hz : st.balance = 0
          · simp [ledgerBegin, hs, hp, hz] at h
          · simp [ledgerBegin, hs, hp, hz]
  obtain ⟨hz, hst2⟩ := hbal
  rw [hst2]
  constructor
  · simp [ledgerAbort]
    omega
  · simp only [ledgerAbort, List.map_append, List.find?_append]
    have hleft : ((st.records.map fun r =>
        if r.recordId == nid then
          { r with status := ConsumptionStatus.failed, isRefunded := true }
        else r).find? fun r => r.recordId == nid) = none := by
      rw [List.find?_eq_none]
      intro x hx
      rw [List.mem_map] at hx
      obtain ⟨r, hr, rfl⟩ := hx
      have := hfresh r hr
      simp [this]
    rw [hleft]
    simp

theorem c2_witness :
    (∀ r ∈ (⟨2, []⟩ : LedgerState).records, r.recordId ≠ "rec9") ∧
    (ledgerBegin ⟨2, []⟩ "u1" "resume_quiz" none "rec9").1 = .ticket "rec9" ∧
    (ledgerAbort (ledgerBegin ⟨2, []⟩ "u1" "resume_quiz" none "rec9").2
        "rec9").balance = 2 ∧
    (ledgerAbort (ledgerBegin ⟨2, []⟩ "u1" "resume_quiz" none "rec9").2
        "rec9").records.find? (fun r => r.recordId == "rec9") =
      some { recordId := "rec9", userId := "u1", workType := "resume_quiz",
             status := .failed, requestId := none, isRefunded := true } := by
  refine ⟨by simp, by decide, ?_⟩
  have := c2_refund_invariant ⟨2, []⟩ "u1" "resume_quiz" "rec9" none
    (by simp) (by decide)
  exact this

/-! ## Generation Gateway result parsing

`parseInterviewResponse` from
`src/interview/services/interview-ai.service.ts` (lines 194-233): detects the
`[END_INTERVIEW]` flag with `String.prototype.includes`, captures the
standard answer with the lazy regex
`\[STANDARD_ANSWER\]([\s\S]*?)(?=\[END_INTERVIEW\]|$)` (text from directly
after the first `[STANDARD_ANSWER]` up to the next `[END_INTERVIEW]` or the
end of the string), takes the question as
`content.split('[STANDARD_ANSWER]')[0].trim()` and finally strips every
occurrence of `[END_INTERVIEW]` with a global replace plus trim. -/

/-- The in-band end-of-interview flag. -/
def endMarker : Text := "[END_INTERVIEW]".data

/-- The in-band marker separating question and reference answer. -/
def standardAnswerMarker : Text := "[STANDARD_ANSWER]".data

/-- Reasoning attached when the end flag was detected
(`面试已达到目标时长（elapsed/target分钟）`). -/
def reasoningText (elapsedMinutes targetDuration : Nat) : Text :=
  "面试已达到目标时长（".data ++ (toString elapsedMinutes).data ++
    "/".data ++ (toString targetDuration).data ++ "分钟）".data

/-- Parsed generation result (`question`, `shouldEnd`, `standardAnswer?`,
`reasoning?`). -/
structure ParsedInterviewResponse where
  question : Text
  shouldEnd : Bool
  standardAnswer : Option Text := none
  reasoning : Option Text := none
deriving DecidableEq, Repr

/-- `parseInterviewResponse(content, context)` of `InterviewAIService`. -/
def parseInterviewResponse (content : Text)
    (elapsedMinutes targetDuration : Nat) : ParsedInterviewResponse :=
  let shouldEnd := containsSub endMarker content
  let parts : Option Text × Text :=
    match firstOccur standardAnswerMarker content with
    | some i =>
      let cap :=
        takeBeforeFirst endMarker
          (content.drop (i + standardAnswerMarker.length))
      (some (trimText cap), trimText (content.take i))
    | none => (none, content)
  { question := trimText (removeAllSub endMarker parts.2),
    shouldEnd := shouldEnd,
    standardAnswer := parts.1,
    reasoning :=
      if shouldEnd then some (reasoningText elapsedMinutes targetDuration)
      else none }

/-- Adversarial generation output for C9: the global removal of
`[END_INTERVIEW]` occurrences glues `[END_` and `INTERVIEW]` together, so the
returned question still contains the marker, and it differs from the plain
trimmed text before the first `[STANDARD_ANSWER]`. -/
def c9Input : Text :=
  "[END_[END_INTERVIEW]INTERVIEW] ok [END_INTERVIEW] q [STANDARD_ANSWER] ans".data

/-- C9 counterexample: the claim that the returned question contains no
occurrence of `[END_INTERVIEW]` and equals the trimmed text before the first
`[STANDARD_ANSWER]` fails on `c9Input`: the question comes out as
`[END_INTERVIEW] ok  q`. -/
theorem c9_counterexample :
    containsSub endMarker (parseInterviewResponse c9Input 10 60).question
        = true ∧
    (parseInterviewResponse c9Input 10 60).question ≠
      trimText (takeBeforeFirst standardAnswerMarker c9Input) ∧
    (parseInterviewResponse c9Input 10 60).question =
      "[END_INTERVIEW] ok  q".data := by
  refine ⟨by decide, by decide, by decide⟩

/-- C9 as amended: `shouldEnd` holds iff the content contains
`[END_INTERVIEW]`; the returned question is the text before the first
`[STANDARD_ANSWER]` (or the whole content when absent), trimmed, with all
left-to-right non-overlapping `[END_INTERVIEW]` occurrences removed and
trimmed again — removal can juxtapose characters into a fresh occurrence —
and when `[STANDARD_ANSWER]` is present the standard answer is defined and
equals the trimmed text between that marker and the next `[END_INTERVIEW]`
or the end of the string. -/
theorem c9_gateway_parsing_amended (content : Text) (e t : Nat) :
    ((parseInterviewResponse content e t).shouldEnd = true ↔
      ∃ a b, content = a ++ endMarker ++ b) ∧
    (parseInterviewResponse content e t).question =
      trimText (removeAllSub endMarker
        (if containsSub standardAnswerMarker content then
          trimText (takeBeforeFirst standardAnswerMarker content)
        else content)) ∧
    (containsSub standardAnswerMarker content = true →
      (parseInterviewResponse content e t).standardAnswer =
        some (trimText (takeBeforeFirst endMarker
          (dropAfterFirst standardAnswerMarker content)))) := by
  refine ⟨?_, ?_, ?_⟩
  · rw [show (parseInterviewResponse content e t).shouldEnd
        = containsSub endMarker content from rfl]
    exact containsSub_iff_exists _ _
  · match hocc : firstOccur standardAnswerMarker content with
    | some i =>
      have hcs : containsSub standardAnswerMarker content = true := by
        rw [containsSub, hocc]
        rfl
      simp only [parseInterviewResponse, hocc, hcs, if_true, takeBeforeFirst]
    | none =>
      have hcs : containsSub standardAnswerMarker content = false := by
        rw [containsSub, hocc]
        rfl
      simp only [parseInterviewResponse, hocc, hcs, Bool.false_eq_true,
        if_false]
  · intro hcs
    rw [containsSub] at hcs
    obtain ⟨i, hocc⟩ := Option.isSome_iff_exists.mp hcs
    simp only [parseInterviewResponse, hocc, dropAfterFirst]

/-! ## Segment Splitter

The fragment-splitting loop of `executeAnswerMockInterview`
(`src/interview/services/interview.service.ts`, lines 539-650): each fragment
is appended to the cumulative buffer `fullQuestion`; `indexOf` looks for the
marker in the whole buffer; on first detection the trimmed pre-marker text is
emitted once as the finalized question (boundary) followed by a waiting
signal, guarded by the `hasStandardAnswer` flag; on every detection the
trimmed post-marker text is emitted as the growing reference answer whenever
it got longer; without a marker the whole buffer streams as question text.
After the loop a final reference-answer event fires when one was found and
nonempty, and without a marker the whole buffer is reclassified as the
question.  The source instantiates the marker with `[STANDARD_ANSWER]`; the
loop itself only depends on the marker text, which is kept as a parameter. -/

/-- Typed output of the splitting loop; `executeAnswerMockInterview` renders
each constructor as one streamed event (QUESTION streaming / QUESTION final
+ WAITING / REFERENCE_ANSWER streaming / REFERENCE_ANSWER final). -/
inductive SplitEvent
  | questionStream (content : Text)
  | boundary (question : Text)
  | waiting
  | refStream (content : Text)
  | refFinal (content : Text)
deriving DecidableEq, Repr

/-- The loop state: cumulative buffer `fullQuestion`, the once-only flag
`hasStandardAnswer`, and the two accumulated segments. -/
structure SplitState where
  fullQuestion : Text := []
  hasStandardAnswer : Bool := false
  questionOnlyContent : Text := []
  standardAnswerContent : Text := []
deriving DecidableEq, Repr

/-- Initial loop state (lines 512, 539-541). -/
def splitInit : SplitState := {}

/-- One iteration of the fragment loop (lines 545-621) on one fragment. -/
def splitStep (marker : Text) (st : SplitState) (chunk : Text) :
    SplitState × List SplitEvent :=
  let full := st.fullQuestion ++ chunk
  match firstOccur marker full with
  | some idx =>
    let st1ev :=
      if st.hasStandardAnswer then
        ({ st with fullQuestion := full }, ([] : List SplitEvent))
      else
        let q := trimText (full.take idx)
        ({ fullQuestion := full, hasStandardAnswer := true,
           questionOnlyContent := q,
           standardAnswerContent := st.standardAnswerContent },
          [.boundary q, .waiting])
    let cur := trimText (full.drop (idx + marker.length))
    if st1ev.1.standardAnswerContent.length < cur.length then
      ({ st1ev.1 with standardAnswerContent := cur },
        st1ev.2 ++ [.refStream cur])
    else st1ev
  | none =>
    ({ st with fullQuestion := full }, [.questionStream full])

/-- The fragment loop over a whole fragment list. -/
def splitLoop (marker : Text) (st : SplitState) :
    List Text → SplitState × List SplitEvent
  | [] => (st, [])
  | c :: rest =>
    let s1 := splitStep marker st c
    let s2 := splitLoop marker s1.1 rest
    (s2.1, s1.2 ++ s2.2)

/-- Post-loop reference-answer flush (lines 624-637). -/
def splitFinishEvents (st : SplitState) : List SplitEvent :=
  if st.hasStandardAnswer && !st.standardAnswerContent.isEmpty then
    [.refFinal st.standardAnswerContent]
  else []

/-- Post-loop reclassification when no marker was ever seen (lines
642-646). -/
def splitFinishState (st : SplitState) : SplitState :=
  if st.hasStandardAnswer then st
  else { st with questionOnlyContent := st.fullQuestion }

/-- A whole stream: loop over all fragments, then the post-loop flush. -/
def splitRun (marker : Text) (chunks : List Text) :
    SplitState × List SplitEvent :=
  let s := splitLoop marker splitInit chunks
  (splitFinishState s.1, s.2 ++ splitFinishEvents s.1)

/-- Number of boundary events in a splitter output. -/
def boundaryCount (evs : List SplitEvent) : Nat :=
  evs.countP fun e =>
    match e with
    | .boundary _ => true
    | _ => false

theorem splitStep_hasSA_mono (marker : Text) (st : SplitState) (chunk : Text)
    (h : st.hasStandardAnswer = true) :
    (splitStep marker st chunk).1.hasStandardAnswer = true ∧
    boundaryCount (splitStep marker st chunk).2 = 0 := by
  rw [splitStep]
  match firstOccur marker (st.fullQuestion ++ chunk) with
  | some idx => simp [h, boundaryCount]; split <;> simp [h]
  | none => simp [h, boundaryCount]

theorem splitStep_boundary_flip (marker : Text) (st : SplitState)
    (chunk : Text) (h : st.hasStandardAnswer = false) :
    boundaryCount (splitStep marker st chunk).2 ≤ 1 ∧
    ((splitStep marker st chunk).1.hasStandardAnswer = false →
      boundaryCount (splitStep marker st chunk).2 = 0) := by
  rw [splitStep]
  match firstOccur marker (st.fullQuestion ++ chunk) with
  | some idx =>
    simp [h, boundaryCount]
    split <;> simp [h, boundaryCount]
  | none => simp [h, boundaryCount]

theorem splitLoop_boundary_le (marker : Text) (chunks : List Text)
    (st : SplitState) :
    boundaryCount (splitLoop marker st chunks).2 ≤
      (if st.hasStandardAnswer then 0 else 1) ∧
    ((splitLoop marker st chunks).1.hasStandardAnswer = false →
      st.hasStandardAnswer = false ∧
      boundaryCount (splitLoop marker st chunks).2 = 0) := by
  induction chunks generalizing st with
  | nil => simp [splitLoop, boundaryCount]
  | cons c rest ih =>
    rw [splitLoop]
    have hcount : boundaryCount ((splitStep marker st c).2 ++
        (splitLoop marker (splitStep marker st c).1 rest).2) =
        boundaryCount (splitStep marker st c).2 +
        boundaryCount (splitLoop marker (splitStep marker st c).1 rest).2 := by
      simp [boundaryCount, List.countP_append]
    by_cases h : st.hasStandardAnswer = true
    · obtain ⟨h1, h2⟩ := splitStep_hasSA_mono marker st c h
      obtain ⟨ih1, _⟩ := ih (splitStep marker st c).1
      rw [h1] at ih1
      simp only [if_true] at ih1
      refine ⟨?_, ?_⟩
      · simp only [hcount, h, if_true, h2]
        omega
      · intro hend
        obtain ⟨ihf, _⟩ := (ih (splitStep marker st c).1).2 hend
        rw [h1] at ihf
        exact absurd ihf (by simp)
    · have h0 : st.hasStandardAnswer = false := by
        revert h
        cases st.hasStandardAnswer <;> simp
      obtain ⟨hle, hz⟩ := splitStep_boundary_flip marker st c h0
      obtain ⟨ih1, ih2⟩ := ih (splitStep marker st c).1
      refine ⟨?_, ?_⟩
      · rw [hcount, h0]
        simp only [Bool.false_eq_true, if_false]
        by_cases hflip : (splitStep marker st c).1.hasStandardAnswer = true
        · rw [hflip] at ih1
          simp only [if_true] at ih1
          omega
        · have hflipf : (splitStep marker st c).1.hasStandardAnswer = false := by
            revert hflip
            cases (splitStep marker st c).1.hasStandardAnswer <;> simp
          have hzz := hz hflipf
          rw [hflipf] at ih1
          simp only [Bool.false_eq_true, if_false] at ih1
          omega
      · intro hend
        obtain ⟨ihf, ihz⟩ := ih2 hend
        refine ⟨h0, ?_⟩
        rw [hcount, ihz, hz ihf]

/-- The marker of the C4 instance. -/
def c4Marker : Text := "[MARKER]".data

/-- The fragment sequence of the C4 instance; the marker is split across the
second and third fragments. -/
def c4Frags : List Text :=
  ["he".data, "llo[MARK".data, "ER]wor".data, "ld".data]

/-- C4, Splitter boundary exactly-once: for every fragment stream the
boundary fires at most once (and matching runs on the cumulative buffer, so
a marker split across fragments is still recognized, as the concrete
instance shows); on the fragments `he / llo[MARK / ER]wor / ld` with marker
`[MARKER]` exactly one boundary event fires, the primary segment is `hello`
and the secondary segment accumulates to `world`. -/
theorem c4_splitter_boundary_exactly_once :
    (∀ (marker : Text) (chunks : List Text),
      boundaryCount (splitRun marker chunks).2 ≤ 1) ∧
    boundaryCount (splitRun c4Marker c4Frags).2 = 1 ∧
    (splitRun c4Marker c4Frags).1.questionOnlyContent = "hello".data ∧
    (splitRun c4Marker c4Frags).1.standardAnswerContent = "world".data ∧
    (splitRun c4Marker c4Frags).2 =
      [.questionStream "he".data, .questionStream "hello[MARK".data,
        .boundary "hello".data, .waiting, .refStream "wor".data,
        .refStream "world".data, .refFinal "world".data] := by
  refine ⟨?_, by decide, by decide, by decide, by decide⟩
  intro marker chunks
  rw [splitRun]
  have h1 := (splitLoop_boundary_le marker chunks splitInit).1
  have hinit : splitInit.hasStandardAnswer = false := rfl
  rw [hinit] at h1
  simp only [Bool.false_eq_true, if_false] at h1
  have h2 : boundaryCount (splitFinishEvents (splitLoop marker splitInit
      chunks).1) = 0 := by
    rw [splitFinishEvents]
    split <;> simp [boundaryCount]
  simp only [boundaryCount, List.countP_append] at *
  omega

theorem c9_amended_witness :
    containsSub standardAnswerMarker
        "Q [STANDARD_ANSWER] A [END_INTERVIEW]".data = true ∧
    (parseInterviewResponse "Q [STANDARD_ANSWER] A [END_INTERVIEW]".data
        5 60).standardAnswer =
      some (trimText (takeBeforeFirst endMarker
        (dropAfterFirst standardAnswerMarker
          "Q [STANDARD_ANSWER] A [END_INTERVIEW]".data))) :=
  ⟨by decide,
    (c9_gateway_parsing_amended
      "Q [STANDARD_ANSWER] A [END_INTERVIEW]".data 5 60).2.2 (by decide)⟩

/-! ## Session Orchestrator

Shallow embedding of `InterviewService` from
`src/interview/services/interview.service.ts` (first snapshot).  The
in-memory session map is an association list; Mongo `findOneAndUpdate`
operations become pure updates of the first matching record; the generation
gateway stream is a parameter (its fragments plus a flag saying whether the
generator throws after them); `uuid()` values are fresh-id parameters;
`Date.now()` is a millisecond parameter (each execution reads it as one
instant).  The execution result records, in program order, the emitted
events interleaved with the durable-write/generation actions, so temporal
claims can be read off the item list. -/

/-- Speaker role of a conversation turn. -/
inductive Role
  | interviewer
  | candidate
deriving DecidableEq, Repr

/-- One conversation turn (`conversationHistory` entries). -/
structure Turn where
  role : Role
  content : Text
  timestampMs : Nat
  standardAnswer : Option Text := none
deriving DecidableEq, Repr

/-- `MockInterviewType`: `special` (90 minutes) or `behavior` (60 minutes,
the DTO's `COMPREHENSIVE` value). -/
inductive MockInterviewType
  | special
  | behavior
deriving DecidableEq, Repr

/-- `InterviewSession` (the in-memory mutable session state). -/
structure InterviewSession where
  sessionId : String
  userId : String
  interviewType : MockInterviewType
  interviewerName : Text := []
  candidateName : Option Text := none
  company : Text := []
  positionName : Option Text := none
  salaryRange : Text := []
  jd : Option Text := none
  resumeContent : Text := []
  conversationHistory : List Turn := []
  questionCount : Nat := 0
  startTimeMs : Nat := 0
  targetDuration : Nat := 60
  isActive : Bool := true
  resultId : Option String := none
  consumptionRecordId : Option String := none
deriving DecidableEq, Repr

/-- `MockInterviewEventType` (`start`/`question`/`waiting`/
`reference_answer`/`thinking`/`end`/`error`). -/
inductive MockInterviewEventType
  | start
  | question
  | waiting
  | referenceAnswer
  | thinking
  | ended
  | error
deriving DecidableEq, Repr

/-- `MockInterviewEvent` with the fields the service sets; the `metadata`
record of the END events is flattened into the `meta*` fields. -/
structure MockInterviewEvent where
  type : MockInterviewEventType
  sessionId : Option String := none
  interviewerName : Option Text := none
  content : Option Text := none
  questionNumber : Option Nat := none
  totalQuestions : Option Nat := none
  elapsedMinutes : Option Nat := none
  errorMsg : Option Text := none
  resultId : Option String := none
  isStreaming : Option Bool := none
  metaReason : Option String := none
  metaTotalQuestions : Option Nat := none
  metaInterviewerName : Option Text := none
deriving DecidableEq, Repr

/-- `qaList` entry of the `AIInterviewResult` schema (`InterviewQA`). -/
structure InterviewQA where
  question : Text := []
  answer : Text := []
  standardAnswer : Text := []
  answerDurationSec : Nat := 0
  askedAtMs : Option Nat := none
  answeredAtMs : Option Nat := none
deriving DecidableEq, Repr

/-- `AIInterviewResult` document, projected to the fields the orchestrator
reads or writes. -/
structure AIInterviewResultRec where
  resultId : String
  userId : String := ""
  interviewType : MockInterviewType := .behavior
  qaList : List InterviewQA := []
  totalQuestions : Nat := 0
  answeredQuestions : Nat := 0
  status : String := "in_progress"
  completedAtMs : Option Nat := none
  sessionState : Option InterviewSession := none
deriving DecidableEq, Repr

/-- The in-memory `interviewSessions : Map<string, InterviewSession>`. -/
abbrev SessionStore := List (String × InterviewSession)

/-- `Map.get`. -/
def storeLookup (store : SessionStore) (sid : String) :
    Option InterviewSession :=
  (store.find? fun p => p.1 == sid).map (·.2)

/-- `Map.set`: replace the binding if present, append otherwise. -/
def storeSet : SessionStore → String → InterviewSession → SessionStore
  | [], sid, s => [(sid, s)]
  | (k, v) :: rest, sid, s =>
    if k == sid then (sid, s) :: rest else (k, v) :: storeSet rest sid s

/-- Mongo `findOne({resultId})`. -/
def dbFind (db : List AIInterviewResultRec) (rid : String) :
    Option AIInterviewResultRec :=
  db.find? fun r => r.resultId == rid

/-- Mongo `findOneAndUpdate({resultId}, ...)`: update the first matching
record, no-op when absent. -/
def dbUpdate (db : List AIInterviewResultRec) (rid : String)
    (f : AIInterviewResultRec → AIInterviewResultRec) :
    List AIInterviewResultRec :=
  match db with
  | [] => []
  | r :: rest =>
    if r.resultId == rid then f r :: rest else r :: dbUpdate rest rid f

/-- Positional `$set` on `qaList.<i>`; updates in range, no-op out of range
(every call site addresses an existing entry). -/
def listModify (l : List InterviewQA) (i : Nat)
    (f : InterviewQA → InterviewQA) : List InterviewQA :=
  match l.get? i with
  | some qa => l.set i (f qa)
  | none => l

/-- Placeholder text written before the question is generated
(`[生成中...]`). -/
def placeholderText : Text := "[生成中...]".data

/-- `createInterviewQuestionPlaceholder` (lines 908-946): `$push` a pending
`qaList` entry and `$inc totalQuestions` by one. -/
def createInterviewQuestionPlaceholder (db : List AIInterviewResultRec)
    (rid : String) (askedAtMs : Nat) : List AIInterviewResultRec :=
  dbUpdate db rid fun r =>
    { r with
      qaList := r.qaList ++
        [{ question := placeholderText, answer := [], standardAnswer := [],
           answerDurationSec := 0, askedAtMs := some askedAtMs,
           answeredAtMs := none }],
      totalQuestions := r.totalQuestions + 1 }

/-- `updateInterviewQuestion` (lines 952-985): positional `$set` of
`qaList.<i>.question` and `qaList.<i>.askedAt`. -/
def updateInterviewQuestion (db : List AIInterviewResultRec) (rid : String)
    (qaIndex : Nat) (question : Text) (askedAtMs : Nat) :
    List AIInterviewResultRec :=
  dbUpdate db rid fun r =>
    { r with
      qaList := listModify r.qaList qaIndex fun qa =>
        { qa with question := question, askedAtMs := some askedAtMs } }

/-- `updateInterviewAnswer` (lines 991-1046): reads the existing record,
treats the call as a first answer when the stored answer at the index is
missing or the empty string, positionally `$set`s the answer (plus
`sessionState` when a session is passed) and `$inc`s `answeredQuestions`
only on a first answer. -/
def updateInterviewAnswer (db : List AIInterviewResultRec) (rid : String)
    (qaIndex : Nat) (answer : Text) (answeredAtMs : Nat)
    (session : Option InterviewSession) : List AIInterviewResultRec :=
  let isFirstAnswer :=
    match dbFind db rid with
    | some r =>
      match r.qaList.get? qaIndex with
      | some qa => qa.answer.isEmpty
      | none => true
    | none => true
  dbUpdate db rid fun r =>
    let r1 :=
      { r with
        qaList := listModify r.qaList qaIndex fun qa =>
          { qa with answer := answer, answeredAtMs := some answeredAtMs } }
    let r2 :=
      match session with
      | some s => { r1 with sessionState := some s }
      | none => r1
    if isFirstAnswer then
      { r2 with answeredQuestions := r2.answeredQuestions + 1 }
    else r2

/-- `updateInterviewStandardAnswer` (lines 1052-1083): positional `$set` of
`qaList.<i>.standardAnswer`. -/
def updateInterviewStandardAnswer (db : List AIInterviewResultRec)
    (rid : String) (qaIndex : Nat) (standardAnswer : Text) :
    List AIInterviewResultRec :=
  dbUpdate db rid fun r =>
    { r with
      qaList := listModify r.qaList qaIndex fun qa =>
        { qa with standardAnswer := standardAnswer } }

/-- Question/answer pairing of `saveMockInterviewResult`'s fallback branch
(lines 848-858): consecutive history pairs, dropping an unpaired tail. -/
def pairQAList : List Turn → List InterviewQA
  | q :: a :: rest =>
    { question := q.content, answer := a.content,
      standardAnswer := q.standardAnswer.getD [],
      answerDurationSec := 0, answeredAtMs := some a.timestampMs } ::
      pairQAList rest
  | _ => []

/-- `saveMockInterviewResult` (lines 812-902): with a `resultId` from
incremental saving, mark the record completed and store the final session
state; otherwise create a complete record from the paired history. -/
def saveMockInterviewResult (session : InterviewSession)
    (db : List AIInterviewResultRec) (nowMs : Nat)
    (freshResultId : String) : String × List AIInterviewResultRec :=
  match session.resultId with
  | some rid =>
    (rid, dbUpdate db rid fun r =>
      { r with status := "completed", completedAtMs := some nowMs,
               sessionState := some session })
  | none =>
    let qaList := pairQAList session.conversationHistory
    (freshResultId,
      db ++ [{ resultId := freshResultId, userId := session.userId,
               interviewType := session.interviewType, qaList := qaList,
               totalQuestions := qaList.length,
               answeredQuestions := qaList.length, status := "completed",
               completedAtMs := some nowMs }])

/-- Durable-write and generation actions of one execution, in program
order. -/
inductive OrchestratorAction
  | dbCreate
  | openingSave
  | genInvoke
  | answerUpdate (qaIndex : Nat)
  | placeholderCreate
  | questionUpdate (qaIndex : Nat)
  | stdAnswerUpdate (qaIndex : Nat)
  | sessionSync
  | saveResult
deriving DecidableEq, Repr

/-- One step of an execution: an emitted event or a performed action. -/
inductive StreamItem
  | ev (e : MockInterviewEvent)
  | act (a : OrchestratorAction)
deriving DecidableEq, Repr

/-- The events of an item list, in order. -/
def eventsOf (items : List StreamItem) : List MockInterviewEvent :=
  items.filterMap fun it =>
    match it with
    | .ev e => some e
    | .act _ => none

/-- The actions of an item list, in order. -/
def actionsOf (items : List StreamItem) : List OrchestratorAction :=
  items.filterMap fun it =>
    match it with
    | .act a => some a
    | .ev _ => none

/-- The exceptions an execution can throw. -/
inductive ExecErr
  | notFound
  | wrongUser
  | sessionEnded
  | generationFailure
  | missingResultId
  | persistenceFailure
deriving DecidableEq, Repr

/-- Result of one execution: ordered items, the thrown exception if any, and
the final session store and database. -/
structure ExecResult where
  items : List StreamItem
  err : Option ExecErr
  store : SessionStore
  db : List AIInterviewResultRec
deriving DecidableEq, Repr

/-- `interviewType === SPECIAL ? 12 : 8`. -/
def totalQuestionsFor (t : MockInterviewType) : Nat :=
  if t = .special then 12 else 8

/-- Closing statement synthesized on timeout (line 463). -/
def closingStatement (elapsedMinutes : Nat) : Text :=
  "感谢您今天的面试表现。由于时间关系（已进行".data ++
    (toString elapsedMinutes).data ++
    "分钟），我们今天的面试就到这里。您的回答让我们对您有了较为全面的了解，后续我们会进行综合评估，有结果会及时通知您。祝您生活愉快！".data

/-- Rendering of a splitter output as the streamed event the source builds
inline in the loop (lines 562-636). -/
def renderSplitEvent (sessionId : String) (s : InterviewSession)
    (elapsed : Nat) : SplitEvent → MockInterviewEvent
  | .questionStream c =>
    { type := .question, sessionId := some sessionId,
      interviewerName := some s.interviewerName, content := some c,
      questionNumber := some s.questionCount,
      totalQuestions := some (totalQuestionsFor s.interviewType),
      elapsedMinutes := some elapsed, isStreaming := some true }
  | .boundary q =>
    { type := .question, sessionId := some sessionId,
      interviewerName := some s.interviewerName, content := some q,
      questionNumber := some s.questionCount,
      totalQuestions := some (totalQuestionsFor s.interviewType),
      elapsedMinutes := some elapsed, isStreaming := some false }
  | .waiting => { type := .waiting, sessionId := some sessionId }
  | .refStream c =>
    { type := .referenceAnswer, sessionId := some sessionId,
      interviewerName := some s.interviewerName, content := some c,
      questionNumber := some s.questionCount,
      totalQuestions := some (totalQuestionsFor s.interviewType),
      elapsedMinutes := some elapsed, isStreaming := some true }
  | .refFinal c =>
    { type := .referenceAnswer, sessionId := some sessionId,
      interviewerName := some s.interviewerName, content := some c,
      questionNumber := some s.questionCount,
      totalQuestions := some (totalQuestionsFor s.interviewType),
      elapsedMinutes := some elapsed, isStreaming := some false }

/-- `executeAnswerMockInterview` (lines 407-806).  `genChunks` is the list
of fragments the generation stream yields; `genFails = true` means the
generator throws after those fragments; the parsed gateway return value is
`parseInterviewResponse` of the concatenated fragments, exactly as
`generateInterviewQuestionStream` computes it. -/
def executeAnswerMockInterview (userId sessionId : String) (answer : Text)
    (nowMs : Nat) (genChunks : List Text) (genFails : Bool)
    (freshResultId : String) (store : SessionStore)
    (db : List AIInterviewResultRec) : ExecResult :=
  match storeLookup store sessionId with
  | none => { items := [], err := some .notFound, store := store, db := db }
  | some s0 =>
    if s0.userId ≠ userId then
      { items := [], err := some .wrongUser, store := store, db := db }
    else if s0.isActive = false then
      { items := [], err := some .sessionEnded, store := store, db := db }
    else
      let s1 :=
        { s0 with
          conversationHistory := s0.conversationHistory ++
            [{ role := .candidate, content := answer, timestampMs := nowMs }],
          questionCount := s0.questionCount + 1 }
      let elapsed := (nowMs - s1.startTimeMs) / 60000
      let maxDuration : Nat := if s1.interviewType = .special then 90 else 60
      if maxDuration ≤ elapsed then
        let closing := closingStatement elapsed
        let s2 :=
          { s1 with
            isActive := false,
            conversationHistory := s1.conversationHistory ++
              [{ role := .interviewer, content := closing,
                 timestampMs := nowMs }] }
        let saved := saveMockInterviewResult s2 db nowMs freshResultId
        { items :=
            [.act .saveResult,
             .ev { type := .ended, sessionId := some sessionId,
                   content := some closing, resultId := some saved.1,
                   elapsedMinutes := some elapsed, isStreaming := some false,
                   metaReason := some "timeout",
                   metaTotalQuestions := some s2.questionCount,
                   metaInterviewerName := some s2.interviewerName }],
          err := none, store := storeSet store sessionId s2, db := saved.2 }
      else
        let split := splitLoop standardAnswerMarker splitInit genChunks
        let loopItems : List StreamItem :=
          [.ev { type := .thinking, sessionId := some sessionId },
           .act .genInvoke] ++
            split.2.map fun se => .ev (renderSplitEvent sessionId s1 elapsed se)
        if genFails then
          { items := loopItems, err := some .generationFailure,
            store := storeSet store sessionId s1, db := db }
        else
          let finishItems : List StreamItem :=
            (splitFinishEvents split.1).map fun se =>
              .ev (renderSplitEvent sessionId s1 elapsed se)
          let aiResponse :=
            parseInterviewResponse genChunks.flatten elapsed s1.targetDuration
          match s1.resultId with
          | none =>
            { items := loopItems ++ finishItems,
              err := some .missingResultId,
              store := storeSet store sessionId s1, db := db }
          | some rid =>
            let prevStep : List OrchestratorAction × List AIInterviewResultRec :=
              if 2 ≤ s1.conversationHistory.length then
                match s1.conversationHistory.get?
                    (s1.conversationHistory.length - 2),
                  s1.conversationHistory.get?
                    (s1.conversationHistory.length - 1) with
                | some prevQ, some userA =>
                  if prevQ.role = .interviewer ∧ userA.role = .candidate then
                    let qaIndex :=
                      if s1.conversationHistory.length - 2 = 0 then 0
                      else s1.questionCount - 1
                    ([.answerUpdate qaIndex],
                      updateInterviewAnswer db rid qaIndex userA.content
                        userA.timestampMs (some s1))
                  else ([], db)
                | _, _ => ([], db)
              else ([], db)
            let db1 := prevStep.2
            let newQAIndex :=
              ((dbFind db1 rid).map fun r => r.qaList.length).getD 0
            let db2 := createInterviewQuestionPlaceholder db1 rid nowMs
            let s2 :=
              { s1 with
                conversationHistory := s1.conversationHistory ++
                  [{ role := .interviewer, content := aiResponse.question,
                     timestampMs := nowMs,
                     standardAnswer := aiResponse.standardAnswer }] }
            let db3 :=
              updateInterviewQuestion db2 rid newQAIndex aiResponse.question
                nowMs
            let stdStep : List OrchestratorAction × List AIInterviewResultRec :=
              match aiResponse.standardAnswer with
              | some sa =>
                ([.stdAnswerUpdate newQAIndex],
                  updateInterviewStandardAnswer db3 rid newQAIndex sa)
              | none => ([], db3)
            let db5 := dbUpdate stdStep.2 rid fun r =>
              { r with sessionState := some s2 }
            let preTail := loopItems ++ finishItems ++
              prevStep.1.map StreamItem.act ++
              [.act .placeholderCreate, .act (.questionUpdate newQAIndex)] ++
              stdStep.1.map StreamItem.act ++ [.act .sessionSync]
            if aiResponse.shouldEnd then
              let s3 := { s2 with isActive := false }
              let saved := saveMockInterviewResult s3 db5 nowMs freshResultId
              { items := preTail ++
                  [.act .saveResult,
                   .ev { type := .ended, sessionId := some sessionId,
                         content := some aiResponse.question,
                         resultId := some saved.1,
                         elapsedMinutes := some elapsed,
                         isStreaming := some false,
                         metaTotalQuestions := some s3.questionCount,
                         metaInterviewerName := some s3.interviewerName }],
                err := none, store := storeSet store sessionId s3,
                db := saved.2 }
            else
              let tailItems : List StreamItem :=
                if split.1.hasStandardAnswer then []
                else
                  [.ev { type := .question, sessionId := some sessionId,
                         interviewerName := some s2.interviewerName,
                         content := some aiResponse.question,
                         questionNumber := some s2.questionCount,
                         totalQuestions :=
                           some (totalQuestionsFor s2.interviewType),
                         elapsedMinutes := some elapsed,
                         isStreaming := some false },
                   .ev { type := .waiting, sessionId := some sessionId }]
              { items := preTail ++ tailItems, err := none,
                store := storeSet store sessionId s2, db := db5 }

/-- `StartMockInterviewDto`, projected to the fields the start flow reads. -/
structure StartMockInterviewDto where
  interviewType : MockInterviewType
  candidateName : Option Text := none
  company : Option Text := none
  positionName : Option Text := none
  minSalary : Nat := 0
  maxSalary : Nat := 0
  jd : Option Text := none
  resumeContent : Text := []
deriving DecidableEq, Repr

/-- `generateOpeningStatement` of `InterviewAIService` (lines 75-93): the
locally synthesized greeting; an absent or empty candidate name falls back
to `你`, the position sentence appears only for a nonempty position. -/
def generateOpeningStatement (interviewerName : Text)
    (candidateName positionName : Option Text) : Text :=
  (match candidateName with
   | some c => if c.isEmpty then "你".data else c
   | none => "你".data) ++
    "好，我是你今天的面试官，你可以叫我".data ++ interviewerName ++
    "老师。\n\n".data ++
    (match positionName with
     | some p =>
       if p.isEmpty then [] else
         "我看到你申请的是".data ++ p ++ "岗位。\n\n".data
     | none => []) ++
    "让我们开始今天的面试吧。\n\n".data ++
    "首先，请你简单介绍一下自己。自我介绍可以说明你的学历以及专业背景、工作经历以及取得的成绩等。".data

/-- Fuel-based worker for the opening five-character chunking; fuel of at
least the text length yields all chunks. -/
def chunksOfAux : Nat → Text → List Text
  | 0, _ => []
  | fuel + 1, s =>
    match s with
    | [] => []
    | c :: rest => (c :: rest.take 4) :: chunksOfAux fuel (rest.drop 4)

/-- `generateOpeningStatementStream` (lines 44-66): the greeting sliced into
chunks of five characters. -/
def openingChunks (greeting : Text) : List Text :=
  chunksOfAux greeting.length greeting

/-- Cumulative buffers after each chunk (`fullOpeningStatement += chunk`),
starting from `acc`. -/
def accumTexts (acc : Text) : List Text → List Text
  | [] => []
  | c :: rest => (acc ++ c) :: accumTexts (acc ++ c) rest

/-- `executeStartMockInterview` (lines 210-371).  `dbCreateOk = false` means
the initial `aiInterviewResultModel.create` rejects (the only awaited
fallible operation before streaming); the session object is inserted into
the map — already carrying its `resultId`, which the source assigns to the
shared object right after `set` — before the create is awaited. -/
def executeStartMockInterview (userId : String) (dto : StartMockInterviewDto)
    (nowMs : Nat) (sessionIdFresh resultIdFresh : String) (dbCreateOk : Bool)
    (store : SessionStore) (db : List AIInterviewResultRec) : ExecResult :=
  let interviewerName : Text := "AI面试官".data
  let salaryRange : Text :=
    (toString dto.minSalary).data ++ "K-".data ++
      (toString dto.maxSalary).data ++ "K".data
  let session1 : InterviewSession :=
    { sessionId := sessionIdFresh, userId := userId,
      interviewType := dto.interviewType,
      interviewerName := interviewerName,
      candidateName := dto.candidateName,
      company := dto.company.getD [], positionName := dto.positionName,
      salaryRange := salaryRange, jd := dto.jd,
      resumeContent := dto.resumeContent, conversationHistory := [],
      questionCount := 0, startTimeMs := nowMs,
      targetDuration := if dto.interviewType = .special then 90 else 60,
      isActive := true, resultId := some resultIdFresh }
  let store1 := storeSet store sessionIdFresh session1
  if dbCreateOk = false then
    { items := [.act .dbCreate], err := some .persistenceFailure,
      store := store1, db := db }
  else
    let db1 := db ++
      [{ resultId := resultIdFresh, userId := userId,
         interviewType := dto.interviewType, qaList := [],
         totalQuestions := 0, answeredQuestions := 0,
         status := "in_progress", sessionState := some session1 }]
    let greeting :=
      generateOpeningStatement interviewerName dto.candidateName
        dto.positionName
    let streamItems : List StreamItem :=
      (accumTexts [] (openingChunks greeting)).map fun c =>
        .ev { type := .start, sessionId := some sessionIdFresh,
              resultId := some resultIdFresh,
              interviewerName := some interviewerName, content := some c,
              questionNumber := some 0,
              totalQuestions := some (totalQuestionsFor dto.interviewType),
              elapsedMinutes := some 0, isStreaming := some true }
    let session2 :=
      { session1 with
        conversationHistory :=
          [{ role := .interviewer, content := greeting,
             timestampMs := nowMs }] }
    let db2 := dbUpdate db1 resultIdFresh fun r =>
      { r with
        qaList := r.qaList ++
          [{ question := greeting, answer := [], answerDurationSec := 0,
             answeredAtMs := some nowMs, askedAtMs := some nowMs }],
        sessionState := some session2 }
    { items := [.act .dbCreate] ++ streamItems ++
        [.act .openingSave,
         .ev { type := .start, sessionId := some sessionIdFresh,
               resultId := some resultIdFresh,
               interviewerName := some interviewerName,
               content := some greeting, questionNumber := some 0,
               totalQuestions := some (totalQuestionsFor dto.interviewType),
               elapsedMinutes := some 0, isStreaming := some false },
         .ev { type := .waiting, sessionId := some sessionIdFresh }],
      err := none, store := storeSet store sessionIdFresh session2,
      db := db2 }

/-- A finished caller-facing stream: the events written to the `Subject`
and whether `complete()` was called on it. -/
structure StreamOutcome where
  events : List MockInterviewEvent
  completed : Bool
deriving DecidableEq, Repr

/-- The `error.message` strings of the exceptions an execution throws
(backend and driver failures carry their own opaque messages). -/
def errEventMessage : ExecErr → Text
  | .notFound => "面试会话不存在或已过期".data
  | .wrongUser => "无权访问此面试会话".data
  | .sessionEnded => "面试会话已结束".data
  | .generationFailure => "generation failed".data
  | .missingResultId => "session.resultId 不存在，无法保存数据".data
  | .persistenceFailure => "database create failed".data

/-- The `.catch` wrapper shared by `startMockInterviewWithStream` (lines
186-205) and `answerMockInterviewWithStream` (lines 380-402): on a thrown
error, emit one `ERROR` event on the still-open subject and complete it; on
the success path the execution body itself completed the subject. -/
def streamWrap (r : ExecResult) : StreamOutcome :=
  match r.err with
  | some e =>
    { events := eventsOf r.items ++
        [{ type := .error, errorMsg := some (errEventMessage e) }],
      completed := true }
  | none => { events := eventsOf r.items, completed := true }

/-- `answerMockInterviewWithStream`: the subject observed by the caller. -/
def answerMockInterviewWithStream (userId sessionId : String) (answer : Text)
    (nowMs : Nat) (genChunks : List Text) (genFails : Bool)
    (freshResultId : String) (store : SessionStore)
    (db : List AIInterviewResultRec) : StreamOutcome :=
  streamWrap (executeAnswerMockInterview userId sessionId answer nowMs
    genChunks genFails freshResultId store db)

/-- `startMockInterviewWithStream`: the subject observed by the caller. -/
def startMockInterviewWithStream (userId : String)
    (dto : StartMockInterviewDto) (nowMs : Nat)
    (sessionIdFresh resultIdFresh : String) (dbCreateOk : Bool)
    (store : SessionStore) (db : List AIInterviewResultRec) : StreamOutcome :=
  streamWrap (executeStartMockInterview userId dto nowMs sessionIdFresh
    resultIdFresh dbCreateOk store db)

/-- The SSE controller (`interview.controller.ts`, `mock/start` and
`mock/answer`): its subscription calls `res.end()` both in the `error` and
in the `complete` callback, so the HTTP response is closed exactly when the
subject terminates. -/
def sseResponseClosed (out : StreamOutcome) : Bool :=
  out.completed

/-! ## Basic store and database lemmas -/

theorem storeLookup_storeSet (store : SessionStore) (sid : String)
    (s : InterviewSession) :
    storeLookup (storeSet store sid s) sid = some s := by
  induction store with
  | nil => simp [storeSet, storeLookup]
  | cons p rest ih =>
    obtain ⟨k, v⟩ := p
    by_cases hk : k == sid
    · simp [storeSet, storeLookup, hk]
    · rw [storeSet]
      simp only [hk, Bool.false_eq_true, if_false]
      rw [storeLookup, List.find?_cons_of_neg _ (by simpa using hk)]
      exact ih

theorem dbFind_dbUpdate (db : List AIInterviewResultRec) (rid : String)
    (f : AIInterviewResultRec → AIInterviewResultRec)
    (hf : ∀ x, (f x).resultId = x.resultId) :
    dbFind (dbUpdate db rid f) rid = (dbFind db rid).map f := by
  induction db with
  | nil => simp [dbFind, dbUpdate]
  | cons r rest ih =>
    by_cases h : r.resultId == rid
    · rw [dbUpdate]
      simp only [h, if_true]
      rw [dbFind, List.find?_cons_of_pos _ (by simpa [hf] using h),
        dbFind, List.find?_cons_of_pos _ (by simpa using h)]
      simp
    · rw [dbUpdate]
      simp only [h, Bool.false_eq_true, if_false]
      rw [dbFind, List.find?_cons_of_neg _ (by simpa using h),
        dbFind, List.find?_cons_of_neg _ (by simpa using h)]
      exact ih

theorem listModify_length (l : List InterviewQA) (i : Nat)
    (f : InterviewQA → InterviewQA) :
    (listModify l i f).length = l.length := by
  rw [listModify]
  cases h : l.get? i <;> simp

theorem listModify_get_same (l : List InterviewQA) (i : Nat)
    (f : InterviewQA → InterviewQA) (qa : InterviewQA)
    (h : l[i]? = some qa) :
    (listModify l i f)[i]? = some (f qa) := by
  have h' : l.get? i = some qa := by rw [List.get?_eq_getElem?]; exact h
  rw [listModify, h']
  have hlt : i < l.length := (List.get?_eq_some.mp h').1
  rw [← List.get?_eq_getElem?]
  exact List.get?_set_eq_of_lt _ hlt

/-- C7, Terminal-state invariant: an answer submission against a missing
session, a session of another user, or a session whose active flag is
false fails with an error before any mutation: no events are emitted and
the session store — hence every session's conversation history and turn
counter — and the database are unchanged.  Since answer processing is the
only operation appending turns and it refuses inactive sessions, no turn is
ever appended after `active` becomes false. -/
theorem c7_terminal_state_invariant (userId sessionId : String)
    (answer : Text) (nowMs : Nat) (genChunks : List Text) (genFails : Bool)
    (freshResultId : String) (store : SessionStore)
    (db : List AIInterviewResultRec)
    (h : storeLookup store sessionId = none ∨
      ∃ s, storeLookup store sessionId = some s ∧
        (s.userId ≠ userId ∨ s.isActive = false)) :
    (executeAnswerMockInterview userId sessionId answer nowMs genChunks
      genFails freshResultId store db).err.isSome = true ∧
    (executeAnswerMockInterview userId sessionId answer nowMs genChunks
      genFails freshResultId store db).store = store ∧
    (executeAnswerMockInterview userId sessionId answer nowMs genChunks
      genFails freshResultId store db).db = db ∧
    (executeAnswerMockInterview userId sessionId answer nowMs genChunks
      genFails freshResultId store db).items = [] := by
  rcases h with h | ⟨s, hs, hcase⟩
  · simp [executeAnswerMockInterview, h]
  · rcases hcase with hu | hina
    · simp [executeAnswerMockInterview, hs, hu]
    · by_cases hu : s.userId ≠ userId
      · simp [executeAnswerMockInterview, hs, hu]
      · simp only [ne_eq, not_not] at hu
        simp [executeAnswerMockInterview, hs, hu, hina]

/-- Inactive session for the C7 witness. -/
def c7Session : InterviewSession :=
  { sessionId := "sid7", userId := "u7", interviewType := .behavior,
    conversationHistory :=
      [{ role := .interviewer, content := "q".data, timestampMs := 0 }],
    questionCount := 1, isActive := false }

theorem c7_witness :
    (storeLookup [("sid7", c7Session)] "sid7" = none ∨
      ∃ s, storeLookup [("sid7", c7Session)] "sid7" = some s ∧
        (s.userId ≠ "u7" ∨ s.isActive = false)) ∧
    (executeAnswerMockInterview "u7" "sid7" "late answer".data 0 [] false
      "fr" [("sid7", c7Session)] []).err.isSome = true ∧
    (executeAnswerMockInterview "u7" "sid7" "late answer".data 0 [] false
      "fr" [("sid7", c7Session)] []).store = [("sid7", c7Session)] :=
  have h : storeLookup [("sid7", c7Session)] "sid7" = none ∨
      ∃ s, storeLookup [("sid7", c7Session)] "sid7" = some s ∧
        (s.userId ≠ "u7" ∨ s.isActive = false) :=
    Or.inr ⟨c7Session, by decide, Or.inr (by decide)⟩
  have hmain := c7_terminal_state_invariant "u7" "sid7" "late answer".data 0
    [] false "fr" [("sid7", c7Session)] [] h
  ⟨h, hmain.1, hmain.2.1⟩

/-- C3, Timeout forcing: for an active 60-minute session (the non-special
job kind, whose stored target duration matches its creation rule), if at
answer-submission time the elapsed whole minutes reach 60, processing the
answer deactivates the session, appends the candidate turn and a closing
interviewer turn, performs no generation call, and emits as only event a
terminal `end` event carrying the closing statement with
`metadata.reason = "timeout"`. -/
theorem c3_timeout_forcing (userId sessionId : String) (answer : Text)
    (nowMs : Nat) (genChunks : List Text) (genFails : Bool)
    (freshResultId : String) (store : SessionStore)
    (db : List AIInterviewResultRec) (s : InterviewSession)
    (hs : storeLookup store sessionId = some s)
    (hu : s.userId = userId) (hact : s.isActive = true)
    (htd : s.targetDuration = 60)
    (hwf : s.targetDuration = if s.interviewType = .special then 90 else 60)
    (helapsed : 60 ≤ (nowMs - s.startTimeMs) / 60000) :
    (executeAnswerMockInterview userId sessionId answer nowMs genChunks
      genFails freshResultId store db).err = none ∧
    actionsOf (executeAnswerMockInterview userId sessionId answer nowMs
      genChunks genFails freshResultId store db).items = [.saveResult] ∧
    OrchestratorAction.genInvoke ∉
      actionsOf (executeAnswerMockInterview userId sessionId answer nowMs
        genChunks genFails freshResultId store db).items ∧
    eventsOf (executeAnswerMockInterview userId sessionId answer nowMs
      genChunks genFails freshResultId store db).items =
      [{ type := .ended, sessionId := some sessionId,
         content := some (closingStatement ((nowMs - s.startTimeMs) / 60000)),
         resultId := some (s.resultId.getD freshResultId),
         elapsedMinutes := some ((nowMs - s.startTimeMs) / 60000),
         isStreaming := some false, metaReason := some "timeout",
         metaTotalQuestions := some (s.questionCount + 1),
         metaInterviewerName := some s.interviewerName }] ∧
    storeLookup (executeAnswerMockInterview userId sessionId answer nowMs
      genChunks genFails freshResultId store db).store sessionId =
      some { s with
        isActive := false,
        conversationHistory := (s.conversationHistory ++
          [{ role := .candidate, content := answer, timestampMs := nowMs }]) ++
          [{ role := .interviewer,
             content := closingStatement ((nowMs - s.startTimeMs) / 60000),
             timestampMs := nowMs }],
        questionCount := s.questionCount + 1 } := by
  have htype : ¬ s.interviewType = .special := by
    intro hsp
    rw [hsp] at hwf
    simp [htd] at hwf
  have hmax : (if s.interviewType = .special then (90 : Nat) else 60) = 60 := by
    simp [htype]
  cases hres : s.resultId with
  | none =>
    simp [executeAnswerMockInterview, hs, hu, hact, hmax, helapsed,
      saveMockInterviewResult, hres, actionsOf, eventsOf,
      storeLookup_storeSet]
  | some rid =>
    simp [executeAnswerMockInterview, hs, hu, hact, hmax, helapsed,
      saveMockInterviewResult, hres, actionsOf, eventsOf,
      storeLookup_storeSet]

/-- Active 60-minute session for the C3 witness, started at time 0. -/
def c3Session : InterviewSession :=
  { sessionId := "sid3", userId := "u3", interviewType := .behavior,
    interviewerName := "AI面试官".data,
    conversationHistory :=
      [{ role := .interviewer, content := "open".data, timestampMs := 0 }],
    questionCount := 0, startTimeMs := 0, targetDuration := 60,
    isActive := true, resultId := some "res3" }

theorem c3_witness :
    (60 ≤ ((61 * 60000 : Nat) - c3Session.startTimeMs) / 60000) ∧
    (executeAnswerMockInterview "u3" "sid3" "ans".data (61 * 60000)
      ["unused".data] false "fr" [("sid3", c3Session)] []).err = none ∧
    OrchestratorAction.genInvoke ∉
      actionsOf (executeAnswerMockInterview "u3" "sid3" "ans".data
        (61 * 60000) ["unused".data] false "fr" [("sid3", c3Session)]
        []).items ∧
    (eventsOf (executeAnswerMockInterview "u3" "sid3" "ans".data (61 * 60000)
      ["unused".data] false "fr" [("sid3", c3Session)] []).items).map
        (fun e => (e.type, e.metaReason)) =
      [(.ended, some "timeout")] := by
  have hmain := c3_timeout_forcing "u3" "sid3" "ans".data (61 * 60000)
    ["unused".data] false "fr" [("sid3", c3Session)] [] c3Session
    (by decide) (by decide) (by decide) (by decide) (by decide) (by decide)
  refine ⟨by decide, hmain.1, hmain.2.2.1, ?_⟩
  rw [hmain.2.2.2.1]
  decide

/-- Active session mid-interview for the C6 run: opening already delivered,
result record with the opening entry saved. -/
def c6Session : InterviewSession :=
  { sessionId := "sid6", userId := "u6", interviewType := .behavior,
    interviewerName := "AI面试官".data,
    conversationHistory :=
      [{ role := .interviewer, content := "opening".data, timestampMs := 0 }],
    questionCount := 0, startTimeMs := 0, targetDuration := 60,
    isActive := true, resultId := some "res6" }

/-- Database for the C6 run: the result row holds the opening entry. -/
def c6Db : List AIInterviewResultRec :=
  [{ resultId := "res6", userId := "u6",
     qaList := [{ question := "opening".data, answeredAtMs := some 0 }],
     totalQuestions := 1 }]

/-- One ordinary turn: the candidate answers at minute 1 and the gateway
streams one fragment `Next question?`. -/
def c6Run : ExecResult :=
  executeAnswerMockInterview "u6" "sid6" "my answer".data 60000
    ["Next question?".data] false "fr" [("sid6", c6Session)] c6Db

/-- C6: on an ordinary turn the generation stream is invoked and fully
consumed before the placeholder entry is created and the question counter
incremented — the action trace runs generation first, then the
placeholder write, then the positional update of that placeholder (the
update itself is by index: the transcript ends with two entries, the
second being the placeholder overwritten with the finalized question, and
the stored question counter is 2).  The claim's ordering — placeholder
before the generation call — is what the code's own step comments
(`在AI开始生成前，先创建占位项`) state, but not what the code does. -/
theorem c6_placeholder_order_bug :
    actionsOf c6Run.items =
      [.genInvoke, .answerUpdate 0, .placeholderCreate, .questionUpdate 1,
        .sessionSync] ∧
    ((dbFind c6Run.db "res6").map fun r => r.qaList.map (·.question)) =
      some ["opening".data, "Next question?".data] ∧
    ((dbFind c6Run.db "res6").map fun r => r.totalQuestions) = some 2 := by
  refine ⟨by decide, by decide, by decide⟩

theorem updateInterviewAnswer_found (db : List AIInterviewResultRec)
    (rid : String) (qaIndex : Nat) (ans : Text) (t : Nat)
    (sess : Option InterviewSession) (r : AIInterviewResultRec)
    (qa : InterviewQA) (hfind : dbFind db rid = some r)
    (hidx : r.qaList[qaIndex]? = some qa) :
    dbFind (updateInterviewAnswer db rid qaIndex ans t sess) rid =
      some { r with
        qaList := listModify r.qaList qaIndex
          (fun x => { x with answer := ans, answeredAtMs := some t }),
        sessionState :=
          (match sess with
           | some s => some s
           | none => r.sessionState),
        answeredQuestions :=
          if qa.answer.isEmpty then r.answeredQuestions + 1
          else r.answeredQuestions } := by
  have hidx' : r.qaList.get? qaIndex = some qa := by
    rw [List.get?_eq_getElem?]
    exact hidx
  rw [updateInterviewAnswer]
  simp only [hfind, hidx']
  rw [dbFind_dbUpdate _ _ _ (by
    intro x
    cases sess <;> by_cases hq : qa.answer.isEmpty = true <;> simp [hq])]
  rw [hfind]
  cases sess <;> by_cases hq : qa.answer.isEmpty = true <;> simp [hq]

/-- C10, Answer-update idempotence: `updateInterviewAnswer` on a result
record and in-range transcript index increments `answeredQuestions` exactly
when the stored answer at that index was empty, and stores the new answer;
a second call at the same index with another non-empty answer overwrites
the stored answer but leaves `answeredQuestions` unchanged — hence, over
any sequence of non-empty answer submissions for one index, the entry
contributes at most one increment. -/
theorem c10_answer_update_idempotence (db : List AIInterviewResultRec)
    (rid : String) (qaIndex : Nat) (a b : Text) (t1 t2 : Nat)
    (sess1 sess2 : Option InterviewSession) (r : AIInterviewResultRec)
    (qa : InterviewQA) (hfind : dbFind db rid = some r)
    (hidx : r.qaList[qaIndex]? = some qa) (ha : a ≠ []) (hb : b ≠ []) :
    ((dbFind (updateInterviewAnswer db rid qaIndex a t1 sess1) rid).map
        fun x => x.answeredQuestions) =
      some (if qa.answer.isEmpty then r.answeredQuestions + 1
        else r.answeredQuestions) ∧
    ((dbFind (updateInterviewAnswer db rid qaIndex a t1 sess1) rid).map
        fun x => x.qaList[qaIndex]?.map (·.answer)) =
      some (some a) ∧
    ((dbFind (updateInterviewAnswer
        (updateInterviewAnswer db rid qaIndex a t1 sess1) rid qaIndex b t2
        sess2) rid).map fun x => x.answeredQuestions) =
      some (if qa.answer.isEmpty then r.answeredQuestions + 1
        else r.answeredQuestions) ∧
    ((dbFind (updateInterviewAnswer
        (updateInterviewAnswer db rid qaIndex a t1 sess1) rid qaIndex b t2
        sess2) rid).map fun x => x.qaList[qaIndex]?.map (·.answer)) =
      some (some b) := by
  have hstep1 := updateInterviewAnswer_found db rid qaIndex a t1 sess1 r qa
    hfind hidx
  have hget1 : (listModify r.qaList qaIndex
      (fun x => { x with answer := a, answeredAtMs := some t1 }))[qaIndex]?
      = some { qa with answer := a, answeredAtMs := some t1 } :=
    listModify_get_same _ _ _ _ hidx
  have hstep2 := updateInterviewAnswer_found
    (updateInterviewAnswer db rid qaIndex a t1 sess1) rid qaIndex b t2 sess2
    _ _ hstep1 hget1
  have hna : ({ qa with answer := a, answeredAtMs := some t1 }
      : InterviewQA).answer.isEmpty = false := by
    simp [List.isEmpty_iff, ha]
  have hget2 := listModify_get_same (listModify r.qaList qaIndex
    (fun x => { x with answer := a, answeredAtMs := some t1 })) qaIndex
    (fun x => { x with answer := b, answeredAtMs := some t2 }) _ hget1
  refine ⟨by rw [hstep1]; simp, by rw [hstep1]; simp [hget1], ?_, ?_⟩
  · rw [hstep2]
    simp [hna]
  · rw [hstep2]
    simp [hget2]

/-- Result record with one unanswered transcript entry, for C10. -/
def c10Rec : AIInterviewResultRec :=
  { resultId := "r10", userId := "u10",
    qaList := [{ question := "q1".data }], answeredQuestions := 0 }

/-- One-record database for the C10 witness. -/
def c10Db : List AIInterviewResultRec := [c10Rec]

theorem c10_witness :
    ((dbFind (updateInterviewAnswer c10Db "r10" 0 "A1".data 5 none)
        "r10").map fun x => x.answeredQuestions) = some 1 ∧
    ((dbFind (updateInterviewAnswer
        (updateInterviewAnswer c10Db "r10" 0 "A1".data 5 none) "r10" 0
        "A2".data 9 none) "r10").map fun x => x.answeredQuestions) =
      some 1 ∧
    ((dbFind (updateInterviewAnswer
        (updateInterviewAnswer c10Db "r10" 0 "A1".data 5 none) "r10" 0
        "A2".data 9 none) "r10").map
        fun x => x.qaList[0]?.map (·.answer)) = some (some "A2".data) := by
  have h := c10_answer_update_idempotence c10Db "r10" 0 "A1".data "A2".data
    5 9 none none c10Rec { question := "q1".data } (by decide) (by decide)
    (by decide) (by decide)
  refine ⟨?_, ?_, h.2.2.2⟩
  · rw [h.1]
    decide
  · rw [h.2.2.1]
    decide

/-! ## Event-stream bookkeeping for the failure-signalling claim -/

theorem eventsOf_append (l₁ l₂ : List StreamItem) :
    eventsOf (l₁ ++ l₂) = eventsOf l₁ ++ eventsOf l₂ :=
  List.filterMap_append _ _ _

theorem eventsOf_map_act (l : List OrchestratorAction) :
    eventsOf (l.map StreamItem.act) = [] := by
  induction l with
  | nil => rfl
  | cons a rest ih => simpa [eventsOf, List.filterMap_cons] using ih

theorem eventsOf_map_ev (l : List MockInterviewEvent) :
    eventsOf (l.map StreamItem.ev) = l := by
  induction l with
  | nil => rfl
  | cons e rest ih => simpa [eventsOf, List.filterMap_cons] using ih

/-- Events produced by rendering splitter outputs are never error events. -/
theorem renderSplitEvent_ne_error (sid : String) (s : InterviewSession)
    (elapsed : Nat) (se : SplitEvent) :
    (renderSplitEvent sid s elapsed se).type ≠ .error := by
  cases se <;> exact fun h => nomatch h

/-- One item is either an action or a non-error event. -/
def itemNotErrorB : StreamItem → Bool
  | .ev e => !(e.type == .error)
  | .act _ => true

/-- No item of the list is an error event. -/
def itemsNoError (items : List StreamItem) : Bool :=
  items.all itemNotErrorB

theorem itemsNoError_append (l₁ l₂ : List StreamItem) :
    itemsNoError (l₁ ++ l₂) = (itemsNoError l₁ && itemsNoError l₂) :=
  List.all_append

theorem itemsNoError_cons (it : StreamItem) (l : List StreamItem) :
    itemsNoError (it :: l) = (itemNotErrorB it && itemsNoError l) :=
  List.all_cons

theorem itemsNoError_nil : itemsNoError [] = true := rfl

theorem itemsNoError_map_act (l : List OrchestratorAction) :
    itemsNoError (l.map StreamItem.act) = true := by
  rw [itemsNoError, List.all_eq_true]
  intro it hit
  rw [List.mem_map] at hit
  obtain ⟨a, _, rfl⟩ := hit
  rfl

theorem itemsNoError_map_render (sid : String) (s : InterviewSession)
    (elapsed : Nat) (l : List SplitEvent) :
    itemsNoError (l.map fun se =>
      StreamItem.ev (renderSplitEvent sid s elapsed se)) = true := by
  rw [itemsNoError, List.all_eq_true]
  intro it hit
  rw [List.mem_map] at hit
  obtain ⟨se, _, rfl⟩ := hit
  cases se <;> rfl

theorem errorCount_zero_of_noError (items : List StreamItem)
    (h : itemsNoError items = true) :
    (eventsOf items).countP (fun e => e.type == .error) = 0 := by
  induction items with
  | nil => rfl
  | cons it rest ih =>
    rw [itemsNoError, List.all_cons, Bool.and_eq_true] at h
    cases it with
    | ev e =>
      rw [eventsOf, List.filterMap_cons]
      have he : (e.type == .error) = false := by
        have := h.1
        rw [itemNotErrorB] at this
        simpa using this
      simp only [List.countP_cons, he]
      simpa [eventsOf] using ih h.2
    | act a =>
      rw [eventsOf, List.filterMap_cons]
      simpa [eventsOf] using ih h.2

set_option maxHeartbeats 2000000 in
/-- The execution body of answer processing itself never emits an `error`
event; the only error event comes from the stream wrapper. -/
theorem executeAnswer_no_error_events (userId sessionId : String)
    (answer : Text) (nowMs : Nat) (genChunks : List Text) (genFails : Bool)
    (freshResultId : String) (store : SessionStore)
    (db : List AIInterviewResultRec) :
    itemsNoError (executeAnswerMockInterview userId sessionId answer nowMs
      genChunks genFails freshResultId store db).items = true := by
  cases h0 : storeLookup store sessionId with
  | none => simp [executeAnswerMockInterview, h0, itemsNoError]
  | some s0 =>
    by_cases h1 : s0.userId ≠ userId
    · simp only [executeAnswerMockInterview, h0]
      rw [if_pos h1]
      simp [itemsNoError]
    · by_cases h2 : s0.isActive = false
      · simp only [executeAnswerMockInterview, h0]
        rw [if_neg h1, if_pos h2]
        simp [itemsNoError]
      · simp only [executeAnswerMockInterview, h0]
        rw [if_neg h1, if_neg h2]
        repeat' split
        all_goals
          simp only [itemsNoError_append, itemsNoError_cons,
            itemsNoError_nil, itemsNoError_map_act, itemsNoError_map_render,
            itemNotErrorB, Bool.and_eq_true, Bool.and_true, Bool.true_and]
        all_goals simp

/-- The execution body of session start itself never emits an `error`
event. -/
theorem executeStart_no_error_events (userId : String)
    (dto : StartMockInterviewDto) (nowMs : Nat)
    (sessionIdFresh resultIdFresh : String) (dbCreateOk : Bool)
    (store : SessionStore) (db : List AIInterviewResultRec) :
    itemsNoError (executeStartMockInterview userId dto nowMs
      sessionIdFresh resultIdFresh dbCreateOk store db).items = true := by
  by_cases hok : dbCreateOk = false
  · simp only [executeStartMockInterview]
    rw [if_pos hok]
    simp [itemsNoError, itemNotErrorB]
  · simp only [executeStartMockInterview]
    rw [if_neg hok]
    simp only [itemsNoError_append, itemsNoError_cons, itemsNoError_nil,
      itemsNoError_map_act, itemNotErrorB, Bool.and_eq_true, Bool.and_true,
      Bool.true_and]
    refine ⟨?_, ?_⟩ <;> first
    | simp
    | · rw [itemsNoError, List.all_eq_true]
        intro it hit
        rw [List.mem_map] at hit
        obtain ⟨c, _, rfl⟩ := hit
        rfl

/-- Number of error events in a stream. -/
def errorEventCount (evs : List MockInterviewEvent) : Nat :=
  evs.countP fun e => e.type == .error

/-- The stream wrapper appends exactly one terminal error event when the
execution threw, and nothing otherwise; either way the subject is
completed. -/
theorem streamWrap_spec (r : ExecResult)
    (hz : errorEventCount (eventsOf r.items) = 0) :
    (streamWrap r).completed = true ∧
    errorEventCount (streamWrap r).events =
      (if r.err.isSome then 1 else 0) ∧
    (r.err.isSome = true →
      ((streamWrap r).events.getLast?).map (·.type) = some .error) := by
  cases herr : r.err with
  | none =>
    simp only [streamWrap, herr, Option.isSome_none, Bool.false_eq_true,
      if_false]
    exact ⟨by simp, hz, fun h => nomatch h⟩
  | some e =>
    simp only [streamWrap, herr, Option.isSome_some, if_true]
    refine ⟨by simp, ?_, fun _ => ?_⟩
    · rw [errorEventCount] at hz ⊢
      rw [List.countP_append, hz, List.countP_cons]
      rfl
    · rw [List.getLast?_concat]
      rfl

/-- C8, Terminal-failure signalling: for both streamed operations (session
start and answer processing) the caller-observed stream always terminates
(`complete()` is called, hence the controller closes the HTTP response);
when the execution fails, exactly one error event is emitted and it is the
last event of the stream; when it succeeds, no error event is emitted.  So
no failure path leaves the stream open or silent. -/
theorem c8_terminal_failure_signalling :
    (∀ (userId sessionId : String) (answer : Text) (nowMs : Nat)
        (genChunks : List Text) (genFails : Bool) (freshResultId : String)
        (store : SessionStore) (db : List AIInterviewResultRec),
      (answerMockInterviewWithStream userId sessionId answer nowMs genChunks
        genFails freshResultId store db).completed = true ∧
      sseResponseClosed (answerMockInterviewWithStream userId sessionId
        answer nowMs genChunks genFails freshResultId store db) = true ∧
      errorEventCount (answerMockInterviewWithStream userId sessionId answer
        nowMs genChunks genFails freshResultId store db).events =
        (if (executeAnswerMockInterview userId sessionId answer nowMs
          genChunks genFails freshResultId store db).err.isSome then 1
        else 0) ∧
      ((executeAnswerMockInterview userId sessionId answer nowMs genChunks
          genFails freshResultId store db).err.isSome = true →
        ((answerMockInterviewWithStream userId sessionId answer nowMs
          genChunks genFails freshResultId store db).events.getLast?).map
            (·.type) = some .error)) ∧
    (∀ (userId : String) (dto : StartMockInterviewDto) (nowMs : Nat)
        (sessionIdFresh resultIdFresh : String) (dbCreateOk : Bool)
        (store : SessionStore) (db : List AIInterviewResultRec),
      (startMockInterviewWithStream userId dto nowMs sessionIdFresh
        resultIdFresh dbCreateOk store db).completed = true ∧
      sseResponseClosed (startMockInterviewWithStream userId dto nowMs
        sessionIdFresh resultIdFresh dbCreateOk store db) = true ∧
      errorEventCount (startMockInterviewWithStream userId dto nowMs
        sessionIdFresh resultIdFresh dbCreateOk store db).events =
        (if (executeStartMockInterview userId dto nowMs sessionIdFresh
          resultIdFresh dbCreateOk store db).err.isSome then 1 else 0) ∧
      ((executeStartMockInterview userId dto nowMs sessionIdFresh
          resultIdFresh dbCreateOk store db).err.isSome = true →
        ((startMockInterviewWithStream userId dto nowMs sessionIdFresh
          resultIdFresh dbCreateOk store db).events.getLast?).map
            (·.type) = some .error)) := by
  constructor
  · intro userId sessionId answer nowMs genChunks genFails freshResultId
      store db
    have hne := executeAnswer_no_error_events userId sessionId answer nowMs
      genChunks genFails freshResultId store db
    have hzero : errorEventCount (eventsOf (executeAnswerMockInterview
        userId sessionId answer nowMs genChunks genFails freshResultId
        store db).items) = 0 := errorCount_zero_of_noError _ hne
    have h := streamWrap_spec _ hzero
    exact ⟨h.1, h.1, h.2.1, h.2.2⟩
  · intro userId dto nowMs sessionIdFresh resultIdFresh dbCreateOk store db
    have hne := executeStart_no_error_events userId dto nowMs sessionIdFresh
      resultIdFresh dbCreateOk store db
    have hzero : errorEventCount (eventsOf (executeStartMockInterview userId
        dto nowMs sessionIdFresh resultIdFresh dbCreateOk store db).items)
        = 0 := errorCount_zero_of_noError _ hne
    have h := streamWrap_spec _ hzero
    exact ⟨h.1, h.1, h.2.1, h.2.2⟩

/-! ## Streaming completeness machinery

A streamed segment is observed through the events of one type: the
`isStreaming=true` events carry the cumulative accumulation so far, the
final `isStreaming=false` event carries the complete text.  The `delta` of
one streaming event relative to the previous one is the text it appends;
`deltasJoin` is the concatenation of all deltas. -/

/-- Contents of the in-progress events of one segment type, in order. -/
def streamingContents (evs : List MockInterviewEvent)
    (t : MockInterviewEventType) : List Text :=
  evs.filterMap fun e =>
    if e.type = t ∧ e.isStreaming = some true then e.content else none

/-- Contents of the finalizing events of one segment type, in order. -/
def finalContents (evs : List MockInterviewEvent)
    (t : MockInterviewEventType) : List Text :=
  evs.filterMap fun e =>
    if e.type = t ∧ e.isStreaming = some false then e.content else none

/-- Content of the last finalizing event of one segment type. -/
def lastFinalContent (evs : List MockInterviewEvent)
    (t : MockInterviewEventType) : Option Text :=
  (finalContents evs t).getLast?

/-- Per-event deltas of a cumulative content sequence: each content minus
its predecessor (the first minus `p`). -/
def deltasFrom (p : Text) : List Text → List Text
  | [] => []
  | c :: rest => c.drop p.length :: deltasFrom c rest

/-- Concatenation of all deltas of a cumulative content sequence. -/
def deltasJoin (cs : List Text) : Text :=
  (deltasFrom [] cs).flatten

/-- Each content extends its predecessor (cumulative snapshots). -/
def chainFrom (p : Text) : List Text → Prop
  | [] => True
  | c :: rest => p <+: c ∧ chainFrom c rest

/-- Last element with default. -/
def lastD (d : Text) : List Text → Text
  | [] => d
  | c :: rest => lastD c rest

theorem chain_deltas (cs : List Text) (p : Text) (h : chainFrom p cs) :
    p ++ (deltasFrom p cs).flatten = lastD p cs := by
  induction cs generalizing p with
  | nil => simp [deltasFrom, lastD]
  | cons c rest ih =>
    obtain ⟨⟨u, hu⟩, hrest⟩ := h
    rw [deltasFrom, lastD, List.flatten_cons, ← List.append_assoc]
    rw [show p ++ c.drop p.length = c by rw [← hu, List.drop_left]]
    exact ih c hrest

theorem lastD_append (a b : List Text) (p : Text) :
    lastD p (a ++ b) = lastD (lastD p a) b := by
  induction a generalizing p with
  | nil => simp [lastD]
  | cons c rest ih => rw [List.cons_append, lastD, lastD, ih]

theorem chainFrom_append (a b : List Text) (p : Text) :
    chainFrom p (a ++ b) ↔ chainFrom p a ∧ chainFrom (lastD p a) b := by
  induction a generalizing p with
  | nil => simp [chainFrom, lastD]
  | cons c rest ih =>
    rw [List.cons_append, chainFrom, chainFrom, lastD, ih, and_assoc]

theorem accumTexts_chainFrom (chunks : List Text) (acc : Text) :
    chainFrom acc (accumTexts acc chunks) := by
  induction chunks generalizing acc with
  | nil => trivial
  | cons c rest ih =>
    exact ⟨List.prefix_append _ _, ih (acc ++ c)⟩

theorem accumTexts_lastD (chunks : List Text) (acc : Text) :
    lastD acc (accumTexts acc chunks) = acc ++ chunks.flatten := by
  induction chunks generalizing acc with
  | nil => simp [lastD]
  | cons c rest ih =>
    rw [accumTexts, lastD, ih, List.flatten_cons, List.append_assoc]

theorem deltasJoin_accumTexts (chunks : List Text) :
    deltasJoin (accumTexts [] chunks) = chunks.flatten := by
  have h := chain_deltas (accumTexts [] chunks) [] (accumTexts_chainFrom _ _)
  rw [List.nil_append] at h
  rw [deltasJoin, h, accumTexts_lastD, List.nil_append]

theorem chunksOfAux_flatten (fuel : Nat) (s : Text) (h : s.length ≤ fuel) :
    (chunksOfAux fuel s).flatten = s := by
  induction fuel generalizing s with
  | zero =>
    rw [Nat.le_zero, List.length_eq_zero] at h
    subst h
    rfl
  | succ fuel ih =>
    cases s with
    | nil => rfl
    | cons c rest =>
      rw [chunksOfAux, List.flatten_cons]
      rw [ih (rest.drop 4) (by simp at h ⊢; omega)]
      rw [List.cons_append, List.take_append_drop]

theorem openingChunks_flatten (g : Text) : (openingChunks g).flatten = g :=
  chunksOfAux_flatten _ _ le_rfl

/-- Contents of reference-answer streaming outputs of the splitter. -/
def refStreamContents (evs : List SplitEvent) : List Text :=
  evs.filterMap fun e =>
    match e with
    | .refStream c => some c
    | _ => none

/-- Contents of reference-answer finalizing outputs of the splitter. -/
def refFinalContents (evs : List SplitEvent) : List Text :=
  evs.filterMap fun e =>
    match e with
    | .refFinal c => some c
    | _ => none

/-- Loop invariant of the splitter: without the flag the reference
accumulator is empty; with it, the marker occurs in the buffer and the
accumulator is a prefix of the trimmed text after the marker (equality
whenever the accumulator last grew). -/
def SplitInv (marker : Text) (st : SplitState) : Prop :=
  (st.hasStandardAnswer = false → st.standardAnswerContent = []) ∧
  (st.hasStandardAnswer = true →
    ∃ k, firstOccur marker st.fullQuestion = some k ∧
      st.standardAnswerContent <+:
        trimText (st.fullQuestion.drop (k + marker.length)))

theorem splitInit_inv (marker : Text) : SplitInv marker splitInit :=
  ⟨fun _ => rfl, fun h => nomatch h⟩

theorem splitStep_ref (marker : Text) (st : SplitState) (chunk : Text)
    (hJ : SplitInv marker st) :
    chainFrom st.standardAnswerContent
      (refStreamContents (splitStep marker st chunk).2) ∧
    lastD st.standardAnswerContent
      (refStreamContents (splitStep marker st chunk).2) =
      (splitStep marker st chunk).1.standardAnswerContent ∧
    SplitInv marker (splitStep marker st chunk).1 ∧
    refFinalContents (splitStep marker st chunk).2 = [] := by
  cases hocc : firstOccur marker (st.fullQuestion ++ chunk) with
  | none =>
    simp only [splitStep, hocc]
    refine ⟨trivial, rfl, ⟨hJ.1, ?_⟩, rfl⟩
    intro ht
    obtain ⟨k, hk, _⟩ := hJ.2 ht
    have := firstOccur_mono chunk hk
    rw [hocc] at this
    exact absurd this (by simp)
  | some idx =>
    by_cases hhas : st.hasStandardAnswer = true
    · obtain ⟨k, hk, hpref⟩ := hJ.2 hhas
      have hmono := firstOccur_mono chunk hk
      have hidxk : idx = k := by
        rw [hocc] at hmono
        exact Option.some_inj.mp hmono
      subst hidxk
      have hfits := firstOccur_fits hk
      have hdrop : (st.fullQuestion ++ chunk).drop (idx + marker.length) =
          st.fullQuestion.drop (idx + marker.length) ++ chunk :=
        List.drop_append_of_le_length hfits
      have hsac_cur : st.standardAnswerContent <+:
          trimText ((st.fullQuestion ++ chunk).drop (idx + marker.length)) := by
        rw [hdrop]
        exact hpref.trans (trim_append_pref _ _)
      by_cases hlt : st.standardAnswerContent.length <
          (trimText ((st.fullQuestion ++ chunk).drop
            (idx + marker.length))).length
      · simp only [splitStep, hocc, hhas, if_true]
        rw [if_pos hlt]
        simp only [refStreamContents, refFinalContents, List.filterMap_append,
          List.filterMap_cons, List.filterMap_nil, List.nil_append,
          List.append_nil, SplitInv]
        exact ⟨⟨hsac_cur, trivial⟩, rfl,
          ⟨(fun hf => nomatch hf), fun _ => ⟨idx, hocc, List.prefix_refl _⟩⟩,
          trivial⟩
      · simp only [splitStep, hocc, hhas, if_true]
        rw [if_neg hlt]
        simp only [refStreamContents, refFinalContents, List.filterMap_nil,
          SplitInv]
        exact ⟨trivial, rfl,
          ⟨(fun hf => nomatch hf), fun _ => ⟨idx, hocc, hsac_cur⟩⟩, trivial⟩
    · have hhas' : st.hasStandardAnswer = false := by
        revert hhas
        cases st.hasStandardAnswer <;> simp
      have hsac0 : st.standardAnswerContent = [] := hJ.1 hhas'
      by_cases hlt : st.standardAnswerContent.length <
          (trimText ((st.fullQuestion ++ chunk).drop
            (idx + marker.length))).length
      · simp only [splitStep, hocc, hhas', Bool.false_eq_true, if_false]
        rw [if_pos hlt]
        simp only [refStreamContents, refFinalContents, List.filterMap_append,
          List.filterMap_cons, List.filterMap_nil, List.nil_append,
          List.append_nil, SplitInv]
        exact ⟨⟨by rw [hsac0]; exact List.nil_prefix, trivial⟩, rfl,
          ⟨(fun hf => nomatch hf), fun _ => ⟨idx, hocc, List.prefix_refl _⟩⟩,
          trivial⟩
      · simp only [splitStep, hocc, hhas', Bool.false_eq_true, if_false]
        rw [if_neg hlt]
        simp only [refStreamContents, refFinalContents, List.filterMap_append,
          List.filterMap_cons, List.filterMap_nil, List.nil_append,
          List.append_nil, SplitInv]
        exact ⟨trivial, rfl,
          ⟨(fun hf => nomatch hf),
            fun _ => ⟨idx, hocc, by rw [hsac0]; exact List.nil_prefix⟩⟩,
          trivial⟩

theorem refStreamContents_append (a b : List SplitEvent) :
    refStreamContents (a ++ b) =
      refStreamContents a ++ refStreamContents b :=
  List.filterMap_append _ _ _

theorem refFinalContents_append (a b : List SplitEvent) :
    refFinalContents (a ++ b) =
      refFinalContents a ++ refFinalContents b :=
  List.filterMap_append _ _ _

theorem splitLoop_ref (marker : Text) (chunks : List Text) (st : SplitState)
    (hJ : SplitInv marker st) :
    chainFrom st.standardAnswerContent
      (refStreamContents (splitLoop marker st chunks).2) ∧
    lastD st.standardAnswerContent
      (refStreamContents (splitLoop marker st chunks).2) =
      (splitLoop marker st chunks).1.standardAnswerContent ∧
    SplitInv marker (splitLoop marker st chunks).1 ∧
    refFinalContents (splitLoop marker st chunks).2 = [] := by
  induction chunks generalizing st with
  | nil => exact ⟨trivial, rfl, hJ, rfl⟩
  | cons c rest ih =>
    obtain ⟨hch, hlast, hinv, hfin⟩ := splitStep_ref marker st c hJ
    obtain ⟨ich, ilast, iinv, ifin⟩ := ih (splitStep marker st c).1 hinv
    rw [splitLoop]
    refine ⟨?_, ?_, iinv, ?_⟩
    · rw [refStreamContents_append, chainFrom_append]
      exact ⟨hch, hlast ▸ ich⟩
    · rw [refStreamContents_append, lastD_append, hlast, ilast]
    · rw [refFinalContents_append, hfin, ifin]
      rfl

/-- The concatenated deltas of the reference-answer streaming outputs of a
whole loop equal the final accumulated reference answer. -/
theorem splitLoop_ref_deltas (marker : Text) (chunks : List Text) :
    deltasJoin (refStreamContents
        (splitLoop marker splitInit chunks).2) =
      (splitLoop marker splitInit chunks).1.standardAnswerContent ∧
    refFinalContents (splitLoop marker splitInit chunks).2 = [] := by
  obtain ⟨hch, hlast, _, hfin⟩ :=
    splitLoop_ref marker chunks splitInit (splitInit_inv marker)
  refine ⟨?_, hfin⟩
  have hinit : splitInit.standardAnswerContent = [] := rfl
  rw [hinit] at hch hlast
  have h := chain_deltas _ _ hch
  rw [List.nil_append] at h
  rw [deltasJoin, h]
  exact hlast

theorem eventsOf_nil : eventsOf [] = [] := rfl

theorem eventsOf_cons_ev (e : MockInterviewEvent) (l : List StreamItem) :
    eventsOf (.ev e :: l) = e :: eventsOf l := by
  simp [eventsOf, List.filterMap_cons]

theorem eventsOf_cons_act (a : OrchestratorAction) (l : List StreamItem) :
    eventsOf (.act a :: l) = eventsOf l := by
  simp [eventsOf, List.filterMap_cons]

theorem eventsOf_map_render (sid : String) (s : InterviewSession) (e : Nat)
    (l : List SplitEvent) :
    eventsOf (l.map fun se => StreamItem.ev (renderSplitEvent sid s e se)) =
      l.map (renderSplitEvent sid s e) := by
  induction l with
  | nil => rfl
  | cons se rest ih => simpa [eventsOf, List.filterMap_cons] using ih

theorem streamingContents_append (a b : List MockInterviewEvent)
    (t : MockInterviewEventType) :
    streamingContents (a ++ b) t =
      streamingContents a t ++ streamingContents b t :=
  List.filterMap_append _ _ _

theorem finalContents_append (a b : List MockInterviewEvent)
    (t : MockInterviewEventType) :
    finalContents (a ++ b) t = finalContents a t ++ finalContents b t :=
  List.filterMap_append _ _ _

theorem streamingContents_map_render (sid : String) (s : InterviewSession)
    (e : Nat) (l : List SplitEvent) :
    streamingContents (l.map (renderSplitEvent sid s e)) .referenceAnswer =
      refStreamContents l := by
  induction l with
  | nil => rfl
  | cons se rest ih =>
    cases se <;>
      simpa [streamingContents, refStreamContents, renderSplitEvent,
        List.filterMap_cons] using ih

theorem finalContents_map_render (sid : String) (s : InterviewSession)
    (e : Nat) (l : List SplitEvent) :
    finalContents (l.map (renderSplitEvent sid s e)) .referenceAnswer =
      refFinalContents l := by
  induction l with
  | nil => rfl
  | cons se rest ih =>
    cases se <;>
      simpa [finalContents, refFinalContents, renderSplitEvent,
        List.filterMap_cons] using ih

theorem splitFinish_refFinal (st : SplitState) :
    refFinalContents (splitFinishEvents st) =
      if st.hasStandardAnswer && !st.standardAnswerContent.isEmpty then
        [st.standardAnswerContent]
      else [] := by
  rw [splitFinishEvents]
  split <;> simp_all [refFinalContents]

theorem splitFinish_refStream (st : SplitState) :
    refStreamContents (splitFinishEvents st) = [] := by
  rw [splitFinishEvents]
  split <;> rfl

theorem streamingContents_nil (t : MockInterviewEventType) :
    streamingContents [] t = [] := rfl

theorem finalContents_nil (t : MockInterviewEventType) :
    finalContents [] t = [] := rfl

theorem streamingContents_cons_type_ne (e : MockInterviewEvent)
    (evs : List MockInterviewEvent) (t : MockInterviewEventType)
    (he : ¬ e.type = t) :
    streamingContents (e :: evs) t = streamingContents evs t := by
  simp [streamingContents, List.filterMap_cons, he]

theorem streamingContents_cons_not_streaming (e : MockInterviewEvent)
    (evs : List MockInterviewEvent) (t : MockInterviewEventType)
    (he : ¬ e.isStreaming = some true) :
    streamingContents (e :: evs) t = streamingContents evs t := by
  simp [streamingContents, List.filterMap_cons, he]

theorem finalContents_cons_type_ne (e : MockInterviewEvent)
    (evs : List MockInterviewEvent) (t : MockInterviewEventType)
    (he : ¬ e.type = t) :
    finalContents (e :: evs) t = finalContents evs t := by
  simp [finalContents, List.filterMap_cons, he]

theorem finalContents_cons_not_final (e : MockInterviewEvent)
    (evs : List MockInterviewEvent) (t : MockInterviewEventType)
    (he : ¬ e.isStreaming = some false) :
    finalContents (e :: evs) t = finalContents evs t := by
  simp [finalContents, List.filterMap_cons, he]

theorem eventsOf_map_ev_comp (g : Text → MockInterviewEvent)
    (l : List Text) :
    eventsOf (l.map fun c => StreamItem.ev (g c)) = l.map g := by
  induction l with
  | nil => rfl
  | cons c rest ih => simpa [eventsOf, List.filterMap_cons] using ih

theorem streamingContents_start_template (sid rid : String) (iname : Text)
    (tq : Nat) (cs : List Text) :
    streamingContents (cs.map fun c =>
      ({ type := .start, sessionId := some sid, resultId := some rid,
         interviewerName := some iname, content := some c,
         questionNumber := some 0, totalQuestions := some tq,
         elapsedMinutes := some 0,
         isStreaming := some true } : MockInterviewEvent)) .start = cs := by
  induction cs with
  | nil => rfl
  | cons c rest ih =>
    simpa [streamingContents, List.filterMap_cons] using ih

theorem finalContents_start_template (sid rid : String) (iname : Text)
    (tq : Nat) (cs : List Text) :
    finalContents (cs.map fun c =>
      ({ type := .start, sessionId := some sid, resultId := some rid,
         interviewerName := some iname, content := some c,
         questionNumber := some 0, totalQuestions := some tq,
         elapsedMinutes := some 0,
         isStreaming := some true } : MockInterviewEvent)) .start = [] := by
  induction cs with
  | nil => rfl
  | cons c rest ih =>
    simpa [finalContents, List.filterMap_cons] using ih

theorem c8_witness :
    (executeAnswerMockInterview "u8" "missing" "a".data 0 [] false "fr" []
      []).err.isSome = true ∧
    errorEventCount (answerMockInterviewWithStream "u8" "missing" "a".data 0
      [] false "fr" [] []).events = 1 ∧
    ((answerMockInterviewWithStream "u8" "missing" "a".data 0 [] false "fr"
      [] []).events.getLast?).map (·.type) = some .error := by
  have h := (c8_terminal_failure_signalling.1 "u8" "missing" "a".data 0 []
    false "fr" [] [])
  refine ⟨by decide, ?_, h.2.2.2 (by decide)⟩
  rw [h.2.2.1]
  decide

/-- Session used for the C5 runs: one opening turn already recorded, an
active 60-minute session linked to result `res5`. -/
def c5Session : InterviewSession :=
  { sessionId := "sid5", userId := "u5", interviewType := .behavior,
    interviewerName := "AI面试官".data,
    conversationHistory :=
      [{ role := .interviewer, content := "opening".data, timestampMs := 0 }],
    questionCount := 0, startTimeMs := 0, targetDuration := 60,
    isActive := true, resultId := some "res5" }

/-- Database used for the C5 runs: the result document with the opening
question already in its transcript. -/
def c5Db : List AIInterviewResultRec :=
  [{ resultId := "res5", userId := "u5",
     qaList := [{ question := "opening".data }], totalQuestions := 1 }]

/-- The caller-facing stream of the C5 answer run: the generation stream
yields the marker split across two fragments. -/
def c5Stream : StreamOutcome :=
  answerMockInterviewWithStream "u5" "sid5" "ans".data 60000
    ["Tell me about X. [STANDARD".data, "_ANSWER] Because Y.".data] false
    "fr" [("sid5", c5Session)] c5Db

/-- **C5** is false as stated for the question segment: in-progress question
events carry the whole accumulated buffer (`content: fullQuestion`, line
570), so the concatenation of the `isStreaming=true` contents is the raw
buffer including the partial `[STANDARD_ANSWER]` marker, while the final
`isStreaming=false` question message carries the trimmed pre-marker text —
they differ on this run. -/
theorem c5_counterexample :
    lastFinalContent c5Stream.events .question =
      some "Tell me about X.".data ∧
    deltasJoin (streamingContents c5Stream.events .question) =
      "Tell me about X. [STANDARD".data ∧
    "Tell me about X. [STANDARD".data ≠ "Tell me about X.".data :=
  ⟨by decide, by decide, by decide⟩

set_option maxHeartbeats 4000000 in
/-- **C5** (amended): streaming completeness holds for the opening-statement
segment and for the reference-answer segment.  For every start stream, if a
final `start` message exists then the concatenation of the deltas of the
`isStreaming=true` `start` contents equals its content; for every answer
stream, the same holds for the `reference_answer` segment.  (The question
segment does not satisfy it; see the counterexample.) -/
theorem c5_streaming_completeness_amended :
    (∀ (userId : String) (dto : StartMockInterviewDto) (nowMs : Nat)
        (sessionIdFresh resultIdFresh : String) (dbCreateOk : Bool)
        (store : SessionStore) (db : List AIInterviewResultRec) (f : Text),
      lastFinalContent (startMockInterviewWithStream userId dto nowMs
          sessionIdFresh resultIdFresh dbCreateOk store db).events .start =
          some f →
      deltasJoin (streamingContents (startMockInterviewWithStream userId dto
          nowMs sessionIdFresh resultIdFresh dbCreateOk store db).events
          .start) = f) ∧
    (∀ (userId sessionId : String) (answer : Text) (nowMs : Nat)
        (genChunks : List Text) (genFails : Bool) (freshResultId : String)
        (store : SessionStore) (db : List AIInterviewResultRec) (f : Text),
      lastFinalContent (answerMockInterviewWithStream userId sessionId
          answer nowMs genChunks genFails freshResultId store db).events
          .referenceAnswer = some f →
      deltasJoin (streamingContents (answerMockInterviewWithStream userId
          sessionId answer nowMs genChunks genFails freshResultId store
          db).events .referenceAnswer) = f) := by
  constructor
  · intro userId dto nowMs sessionIdFresh resultIdFresh dbCreateOk store db f
    rw [startMockInterviewWithStream]
    by_cases hok : dbCreateOk = false
    · simp only [executeStartMockInterview]
      rw [if_pos hok]
      simp [streamWrap, lastFinalContent, finalContents, eventsOf,
        List.filterMap_cons]
    · simp only [executeStartMockInterview]
      rw [if_neg hok]
      simp only [streamWrap, eventsOf_append, eventsOf_cons_ev,
        eventsOf_cons_act, eventsOf_nil, eventsOf_map_ev_comp,
        lastFinalContent, streamingContents_append, finalContents_append,
        streamingContents_start_template, finalContents_start_template,
        List.nil_append, List.append_nil]
      simp [streamingContents, finalContents, List.filterMap_cons]
      intro hf
      rw [deltasJoin_accumTexts, openingChunks_flatten]
      first
      | exact hf
      | exact hf.symm
  · intro userId sessionId answer nowMs genChunks genFails freshResultId
      store db f
    rw [answerMockInterviewWithStream]
    obtain ⟨hdj, hfin0⟩ := splitLoop_ref_deltas standardAnswerMarker genChunks
    cases h0 : storeLookup store sessionId with
    | none =>
      simp [executeAnswerMockInterview, h0, streamWrap, lastFinalContent,
        finalContents, eventsOf, List.filterMap_cons]
    | some s0 =>
      by_cases h1 : s0.userId ≠ userId
      · simp only [executeAnswerMockInterview, h0]
        rw [if_pos h1]
        simp [streamWrap, lastFinalContent, finalContents, eventsOf,
          List.filterMap_cons]
      · by_cases h2 : s0.isActive = false
        · simp only [executeAnswerMockInterview, h0]
          rw [if_neg h1, if_pos h2]
          simp [streamWrap, lastFinalContent, finalContents, eventsOf,
            List.filterMap_cons]
        · simp only [executeAnswerMockInterview, h0]
          rw [if_neg h1, if_neg h2]
          repeat' split
          all_goals
            simp only [streamWrap, eventsOf_append, eventsOf_cons_ev,
              eventsOf_cons_act, eventsOf_nil, eventsOf_map_render,
              eventsOf_map_act, lastFinalContent, streamingContents_append,
              finalContents_append, streamingContents_map_render,
              finalContents_map_render, splitFinish_refFinal,
              splitFinish_refStream, hfin0, List.append_nil,
              List.nil_append]
          all_goals
            simp [streamingContents, finalContents, List.filterMap_cons,
              hdj, hfin0]
          all_goals
            intro hf
            split at hf
            · simp only [List.getLast?_singleton, Option.some.injEq] at hf
              first
              | exact hf
              | exact hf.symm
            · exact absurd hf (by simp)

/-- Witness for the amended C5: on the marker-splitting run, the final
reference-answer content exists, and the streamed reference-answer deltas
join to it. -/
theorem c5_witness :
    deltasJoin (streamingContents (answerMockInterviewWithStream "u5" "sid5"
      "ans".data 60000 ["Tell me about X. [STANDARD".data,
        "_ANSWER] Because Y.".data] false "fr" [("sid5", c5Session)]
      c5Db).events .referenceAnswer) = "Because Y.".data :=
  c5_streaming_completeness_amended.2 "u5" "sid5" "ans".data 60000
    ["Tell me about X. [STANDARD".data, "_ANSWER] Because Y.".data] false
    "fr" [("sid5", c5Session)] c5Db "Because Y.".data (by decide)

end WWServer
